import Mathlib

/-!
Shallow embedding of the `remind` workflow engine
(`crates/server-model/src/flow.rs`) and proofs about it.

Modelling conventions:
* Rust `std::time::Duration` values are whole seconds here, so a duration is a
  `Nat` of seconds (the engine only ever builds durations via
  `Duration::from_secs`).
* Rust `u64` arithmetic in `parse_duration` is modelled with an explicit
  upper bound `2 ^ 64` on the parsed value (mirroring `str::parse::<u64>`,
  which rejects out-of-range input) and wrap-around `% 2 ^ 64` on the unit
  multiplications (release-mode `u64` semantics).
* `HashMap<String, String>` is modelled as an association list
  (`List (String × String)`) with replace-on-insert semantics; only `get` and
  `insert` are used by the source, and both are observably identical to the
  list model.
* `BTreeMap` / `BTreeSet` are modelled as key-sorted duplicate-free
  association lists with ordered insertion.
* Rust `char::is_whitespace` tests the Unicode `White_Space` property; the
  model enumerates that property's full code-point set (U+0009 to U+000D,
  U+0020, U+0085, U+00A0, U+1680, U+2000 to U+200A, U+2028, U+2029, U+202F,
  U+205F, U+3000).
* `serde_yaml` deserialization is external library code; it is abstracted as
  a `decode : String → Except String RawConfig` parameter.  Everything after
  that boundary (`FlowConfig::from_yaml`'s validation, `parse_duration`,
  `CredentialSource::from_map`, `ValueRef::from_map`, the step conversion) is
  translated from the source.
-/

namespace Remind

/-- Character classifier mirroring Rust `char::is_ascii_digit`. -/
def isDigitC (c : Char) : Bool :=
  48 ≤ c.toNat && c.toNat ≤ 57

/-- Character classifier mirroring Rust `char::is_whitespace`: the Unicode
`White_Space` property (U+0009 to U+000D, U+0020, U+0085, U+00A0, U+1680,
U+2000 to U+200A, U+2028, U+2029, U+202F, U+205F, U+3000). -/
def isWsC (c : Char) : Bool :=
  (9 ≤ c.toNat && c.toNat ≤ 13) || c.toNat == 32 || c.toNat == 133 ||
  c.toNat == 160 || c.toNat == 5760 ||
  (8192 ≤ c.toNat && c.toNat ≤ 8202) ||
  c.toNat == 8232 || c.toNat == 8233 || c.toNat == 8239 ||
  c.toNat == 8287 || c.toNat == 12288

/-- Model of `str::trim`: drop whitespace from both ends of the character
list. -/
def trimChars (l : List Char) : List Char :=
  ((l.dropWhile isWsC).reverse.dropWhile isWsC).reverse

/-- Association-list model of `HashMap::get` (first matching key). -/
def lookupKV (m : List (String × String)) (k : String) : Option String :=
  match m with
  | [] => none
  | (k', v) :: rest => if k' = k then some v else lookupKV rest k

/-- Association-list model of `HashMap::insert`: replace in place if the key
is present, otherwise append. -/
def insertKV (m : List (String × String)) (k v : String) :
    List (String × String) :=
  match m with
  | [] => [(k, v)]
  | (k', v') :: rest =>
    if k' = k then (k, v) :: rest else (k', v') :: insertKV rest k v

/-- Lexicographic strict order on character lists by code point, comparing
position by position.  This models Rust's `Ord for String` (byte-wise
lexicographic order on UTF-8, which coincides with code-point order). -/
def ltChars : List Char → List Char → Bool
  | [], [] => false
  | [], _ :: _ => true
  | _ :: _, [] => false
  | a :: as, b :: bs =>
    if a.toNat < b.toNat then true
    else if b.toNat < a.toNat then false
    else ltChars as bs

/-- Model of Rust's `Ord for String` (strict part). -/
def ltStr (a b : String) : Bool :=
  ltChars a.data b.data

/-- Ordered-set insertion, modelling `BTreeSet<String>::insert`. -/
def btreeInsert (k : String) : List String → List String
  | [] => [k]
  | k' :: rest =>
    if k = k' then k' :: rest
    else if ltStr k k' then k :: k' :: rest
    else k' :: btreeInsert k rest

/-- Ordered-map insertion, modelling `BTreeMap<String, _>::insert`. -/
def btreeInsertKV {α : Type} (k : String) (v : α) :
    List (String × α) → List (String × α)
  | [] => [(k, v)]
  | (k', v') :: rest =>
    if k = k' then (k, v) :: rest
    else if ltStr k k' then (k, v) :: (k', v') :: rest
    else (k', v') :: btreeInsertKV k v rest

/-! ## Duration parsing (`parse_duration`) -/

/-- Numeric value of a list of decimal digit characters (most significant
first). -/
def digitsValChars (l : List Char) : Nat :=
  l.foldl (fun acc c => acc * 10 + (c.toNat - 48)) 0

/-- Model of `str::parse::<u64>` applied to the collected digit run: fails on
an empty string, a non-digit character, or a value outside the `u64` range. -/
def parseU64 (ds : List Char) : Option Nat :=
  if ds = [] then none
  else if ds.all isDigitC then
    if digitsValChars ds < 2 ^ 64 then some (digitsValChars ds) else none
  else none

/-- The character loop of `parse_duration`: accumulate a leading digit run and
a trailing unit, rejecting any digit that appears after a non-digit
character. -/
def splitNum : List Char → List Char → List Char →
    Option (List Char × List Char)
  | [], digits, unit => some (digits, unit)
  | c :: rest, digits, unit =>
    if isDigitC c then
      if unit ≠ [] then none
      else splitNum rest (digits ++ [c]) unit
    else splitNum rest digits (unit ++ [c])

/-- The unit match of `parse_duration`, producing seconds.  Multiplications
carry the `u64` wrap-around of the source's release-mode arithmetic. -/
def unitSecs (value : Nat) (unit : List Char) : Option Nat :=
  if unit = [] then some value
  else if unit = ['s'] then some value
  else if unit = ['m'] then some (value * 60 % 2 ^ 64)
  else if unit = ['h'] then some (value * 3600 % 2 ^ 64)
  else if unit = ['d'] then some (value * 86400 % 2 ^ 64)
  else none

/-- Translation of `parse_duration` (flow.rs).  The result is a number of
seconds. -/
def parseTrimmedDuration (trimmed : List Char) : Option Nat :=
  if trimmed = [] then none
  else
    match splitNum trimmed [] [] with
    | none => none
    | some (digits, unit) =>
      match parseU64 digits with
      | none => none
      | some value => unitSecs value unit

/-- Translation of `parse_duration` (flow.rs).  The result is a number of
seconds; the helper above is the body after the `trim`. -/
def parse_duration (input : String) : Option Nat :=
  parseTrimmedDuration (trimChars input.data)

/-! ## Value model -/

/-- Opaque per-workflow effect identifier (`EffId`). -/
structure EffId where
  val : Nat
deriving DecidableEq

/-- Static configuration-discovery data (`ConfigDiscovery`). -/
structure ConfigDiscovery where
  env_var : String
  fallback_paths : List String
deriving DecidableEq

/-- Constant `CONFIG_DISCOVERY` (built from `CONFIG_ENV_VAR` and
`DEFAULT_CONFIG_PATHS`). -/
def CONFIG_DISCOVERY : ConfigDiscovery :=
  { env_var := "REMIND_CONFIG_PATH"
    fallback_paths := ["~/.remind/config.yaml", "/etc/remind-config.yaml"] }

/-- Spreadsheet cell coordinates (`CellRef`); `u32` fields as `Nat`. -/
structure CellRef where
  row : Nat
  column : Nat
deriving DecidableEq

/-- Email search field (`EmailField`). -/
inductive EmailField where
  | subject
  | sender
  | recipient
deriving DecidableEq

/-- Request payload of `Effect::FetchGoogleSheetCell`. -/
structure GoogleSheetRequest where
  sheet_id : String
  worksheet : Option String
  cell : CellRef
  credentials : Option String
  tag : EffId
deriving DecidableEq

/-- Request payload of `Effect::SearchEmails`. -/
structure EmailSearchRequest where
  account : String
  field : EmailField
  regex : String
  credentials : Option String
  tag : EffId
deriving DecidableEq

/-- Request payload of `Effect::SendTelegramMessage`. -/
structure TelegramRequest where
  chat_id : String
  message : String
  credentials : Option String
  tag : EffId
deriving DecidableEq

/-- Effects the engine asks the host to perform (`Effect`).  Durations are in
seconds. -/
inductive Effect where
  | loadConfig (discovery : ConfigDiscovery) (tag : EffId)
  | readEnvVar (name : String) (tag : EffId)
  | fetchGoogleSheetCell (req : GoogleSheetRequest)
  | searchEmails (req : EmailSearchRequest)
  | sendTelegramMessage (req : TelegramRequest)
  | startTimer (duration : Nat) (tag : EffId)
deriving DecidableEq

/-- Host replies (`Event`). -/
inductive Event where
  | configLoaded (tag : EffId) (path : String) (contents : String)
  | configLoadFailed (tag : EffId) (error : String)
  | envVarLoaded (tag : EffId) (name : String) (value : Option String)
  | stepCompleted (tag : EffId) (value : Option String)
  | stepFailed (tag : EffId) (error : String)
  | timerFired (tag : EffId)
deriving DecidableEq

/-- Engine output after a transition (`Command`); `Done` carries
`Result<(), String>` modelled as `Except String Unit`. -/
instance {ε α : Type} [DecidableEq ε] [DecidableEq α] :
    DecidableEq (Except ε α) := fun a b =>
  match a, b with
  | .ok x, .ok y =>
    if h : x = y then isTrue (by rw [h])
    else isFalse (fun hc => h (by cases hc; rfl))
  | .error x, .error y =>
    if h : x = y then isTrue (by rw [h])
    else isFalse (fun hc => h (by cases hc; rfl))
  | .ok _, .error _ => isFalse (fun h => Except.noConfusion h)
  | .error _, .ok _ => isFalse (fun h => Except.noConfusion h)

inductive Command where
  | doEff (eff : Effect)
  | wait
  | done (res : Except String Unit)
deriving DecidableEq

/-! ## Configuration model -/

/-- Typed reference to a string value (`ValueRef`). -/
inductive ValueRef where
  | literal (template : String)
  | env (name : String)
  | credential (name : String)
  | var (name : String)
deriving DecidableEq

/-- Credential source (`CredentialSource`). -/
inductive CredentialSource where
  | value (val : String)
  | envVar (env : String)
deriving DecidableEq

/-- Google-sheet step definition (`GoogleSheetStep`). -/
structure GoogleSheetStep where
  sheet_id : ValueRef
  worksheet : Option ValueRef
  cell : CellRef
  store_as : String
  credentials : Option String
deriving DecidableEq

/-- Email step definition (`EmailStep`). -/
structure EmailStep where
  account : ValueRef
  field : EmailField
  regex : ValueRef
  store_as : Option String
  credentials : Option String
deriving DecidableEq

/-- Telegram step definition (`TelegramStep`). -/
structure TelegramStep where
  chat_id : ValueRef
  message : ValueRef
  credentials : Option String
deriving DecidableEq

/-- Step definition (`Step`). -/
inductive Step where
  | googleSheet (s : GoogleSheetStep)
  | email (s : EmailStep)
  | telegram (s : TelegramStep)
deriving DecidableEq

/-- Parsed recipe (`FlowConfig`); `run_every` in seconds; `credentials` is the
`BTreeMap` as a key-sorted association list. -/
structure FlowConfig where
  run_every : Nat
  credentials : List (String × CredentialSource)
  steps : List Step
deriving DecidableEq

/-- Error kinds (`FlowError`). -/
inductive FlowError where
  | configLoad (err : String)
  | invalidConfig (err : String)
  | missingEnvVar (name : String)
  | missingCredential (name : String)
  | missingVariable (name : String)
  | invalidTemplate (err : String)
  | stepFailure (step_index : Nat) (message : String)
deriving DecidableEq

/-- Translation of `impl Display for FlowError` (the human-readable
message). -/
def FlowError.toMessage : FlowError → String
  | .configLoad err => "failed to load configuration: " ++ err
  | .invalidConfig err => "invalid configuration: " ++ err
  | .missingEnvVar name =>
    "environment variable \x27" ++ name ++ "\x27 is required"
  | .missingCredential name =>
    "credential \x27" ++ name ++ "\x27 is not defined"
  | .missingVariable name =>
    "value for \x27" ++ name ++ "\x27 is not available"
  | .invalidTemplate err => "template error: " ++ err
  | .stepFailure step_index message =>
    "step " ++ Nat.repr (step_index + 1) ++ " failed: " ++ message

/-! ## Recipe parsing after the serde boundary -/

/-- Raw value map collected by the custom `ValueMap` deserializer. -/
structure ValueMap where
  value : Option String
  env : Option String
  credential : Option String
  var : Option String
deriving DecidableEq

/-- Translation of `CredentialSource::from_map`. -/
def CredentialSource.from_map (map : ValueMap) :
    Except String CredentialSource :=
  if map.credential.isSome ∨ map.var.isSome then
    .error "credential may only specify \x27value\x27 or \x27env\x27"
  else
    match map.value, map.env with
    | some v, none => .ok (CredentialSource.value v)
    | none, some e => .ok (CredentialSource.envVar e)
    | some _, some _ =>
      .error "credential must specify either \x27value\x27 or \x27env\x27"
    | none, none =>
      .error "credential must specify \x27value\x27 or \x27env\x27"

/-- Translation of `ValueRef::from_map`. -/
def ValueRef.from_map (map : ValueMap) : Except String ValueRef :=
  match map.value, map.env, map.credential, map.var with
  | some v, none, none, none => .ok (ValueRef.literal v)
  | none, some e, none, none => .ok (ValueRef.env e)
  | none, none, some c, none => .ok (ValueRef.credential c)
  | none, none, none, some w => .ok (ValueRef.var w)
  | none, none, none, none =>
    .error ("value reference must specify one of \x27value\x27, \x27env\x27, "
      ++ "\x27credential\x27, or \x27var\x27")
  | _, _, _, _ => .error "value reference must specify only one source"

/-- Raw step as produced by serde (`RawStep`); its `ValueRef` fields have
already been through the `ValueRef` deserializer. -/
inductive RawStep where
  | googleSheet (sheet_id : ValueRef) (worksheet : Option ValueRef)
      (cell : CellRef) (store_as : String) (credentials : Option String)
  | email (account : ValueRef) (field : EmailField) (regex : ValueRef)
      (store_as : Option String) (credentials : Option String)
  | telegram (chat_id : ValueRef) (message : ValueRef)
      (credentials : Option String)
deriving DecidableEq

/-- Raw configuration as produced by serde (`RawConfig`); `credentials` is the
serde `BTreeMap`, hence key-sorted and duplicate-free. -/
structure RawConfig where
  run_every : String
  credentials : List (String × ValueMap)
  steps : List RawStep
deriving DecidableEq

/-- Translation of `impl TryFrom<RawStep> for Step` (never fails). -/
def Step.ofRaw : RawStep → Step
  | .googleSheet sheet_id worksheet cell store_as credentials =>
    .googleSheet ⟨sheet_id, worksheet, cell, store_as, credentials⟩
  | .email account field regex store_as credentials =>
    .email ⟨account, field, regex, store_as, credentials⟩
  | .telegram chat_id message credentials =>
    .telegram ⟨chat_id, message, credentials⟩

/-- The credential loop of `FlowConfig::from_yaml`: convert each raw
credential and insert it into a fresh `BTreeMap`. -/
def buildCredentials :
    List (String × ValueMap) → Except FlowError (List (String × CredentialSource))
  | [] => .ok []
  | (name, cred) :: rest =>
    match CredentialSource.from_map cred with
    | .error err =>
      .error (.invalidConfig ("credential \x27" ++ name ++ "\x27: " ++ err))
    | .ok source =>
      match buildCredentials rest with
      | .error e => .error e
      | .ok tail => .ok (btreeInsertKV name source tail)

/-- Translation of `FlowConfig::from_yaml` after the serde boundary: validate
a `RawConfig` into a `FlowConfig`. -/
def FlowConfig.fromRaw (raw : RawConfig) : Except FlowError FlowConfig :=
  match parse_duration raw.run_every with
  | none => .error (.invalidConfig "invalid run_every value")
  | some run_every =>
    match buildCredentials raw.credentials with
    | .error e => .error e
    | .ok credentials =>
      .ok { run_every := run_every
            credentials := credentials
            steps := raw.steps.map Step.ofRaw }

/-- Translation of `FlowConfig::from_yaml`, with the external `serde_yaml`
deserializer abstracted as `decode`. -/
def FlowConfig.from_yaml (decode : String → Except String RawConfig)
    (contents : String) : Except FlowError FlowConfig :=
  match decode contents with
  | .error err => .error (.invalidConfig err)
  | .ok raw => FlowConfig.fromRaw raw

/-! ## Environment-request computation -/

/-- Translation of `ValueRef::collect_env`. -/
def ValueRef.collect_env (v : ValueRef) (set : List String) : List String :=
  match v with
  | .env name => btreeInsert name set
  | _ => set

/-- Translation of `Step::collect_env`. -/
def Step.collect_env (s : Step) (set : List String) : List String :=
  match s with
  | .googleSheet step =>
    let set := step.sheet_id.collect_env set
    match step.worksheet with
    | some ws => ws.collect_env set
    | none => set
  | .email step => step.regex.collect_env (step.account.collect_env set)
  | .telegram step => step.message.collect_env (step.chat_id.collect_env set)

/-- Translation of `FlowConfig::env_requests`: the sorted set of environment
variable names required by the recipe. -/
def FlowConfig.env_requests (cfg : FlowConfig) : List String :=
  let set := cfg.credentials.foldl
    (fun set p =>
      match p.2 with
      | CredentialSource.envVar name => btreeInsert name set
      | _ => set) []
  cfg.steps.foldl (fun set step => step.collect_env set) set

/-- The `Env` names referenced by one value reference (observation used to
characterize `env_requests`). -/
def ValueRef.envName : ValueRef → List String
  | .env n => [n]
  | _ => []

/-- The `Env` names referenced by a step's `ValueRef`-bearing fields. -/
def Step.envNames : Step → List String
  | .googleSheet s =>
    s.sheet_id.envName ++
      (match s.worksheet with
       | some w => w.envName
       | none => [])
  | .email s => s.account.envName ++ s.regex.envName
  | .telegram s => s.chat_id.envName ++ s.message.envName

/-- Every `Env` name referenced by the credentials and the steps of a
configuration, in recipe order and with duplicates kept. -/
def FlowConfig.envRefNames (cfg : FlowConfig) : List String :=
  (cfg.credentials.filterMap
    (fun p =>
      match p.2 with
      | CredentialSource.envVar n => some n
      | _ => none)) ++
    (cfg.steps.map Step.envNames).flatten

/-! ## Engine state -/

/-- Lifecycle stage (`Stage`). -/
inductive Stage where
  | init
  | waitingConfig (tag : EffId)
  | loadingEnv
  | running
  | waitingTimer (tag : EffId)
  | done (res : Except String Unit)
deriving DecidableEq

/-- Outstanding step record (`PendingStep`). -/
structure PendingStep where
  step_index : Nat
  tag : EffId
  store_as : Option String
  require_value : Bool
deriving DecidableEq

/-- Per-cycle run state (`RunState`). -/
structure RunState where
  step_index : Nat
  vars : List (String × String)
  pending : Option PendingStep
deriving DecidableEq

/-- The workflow engine (`ReminderFlow`).  `VecDeque<String>` is a list;
the two `HashMap`s are association lists. -/
structure ReminderFlow where
  stage : Stage
  next_tag : Nat
  config : Option FlowConfig
  env_values : List (String × String)
  resolved_credentials : List (String × String)
  pending_env : List String
  current_env : Option (String × EffId)
  run_state : Option RunState
deriving DecidableEq

namespace ReminderFlow

/-- Translation of `ReminderFlow::new`. -/
def new : ReminderFlow :=
  { stage := .init
    next_tag := 1
    config := none
    env_values := []
    resolved_credentials := []
    pending_env := []
    current_env := none
    run_state := none }

/-- Translation of the private method `ReminderFlow::next_tag` (named
`allocTag` here because the structure field already carries the source
name). -/
def allocTag (f : ReminderFlow) : ReminderFlow × EffId :=
  ({ f with next_tag := f.next_tag + 1 }, ⟨f.next_tag⟩)

/-- Translation of `ReminderFlow::finish_error`. -/
def finish_error (f : ReminderFlow) (err : FlowError) :
    ReminderFlow × Command :=
  let msg := err.toMessage
  ({ f with stage := .done (.error msg), run_state := none },
    .done (.error msg))

/-- Translation of `ReminderFlow::credential_value`. -/
def credential_value (f : ReminderFlow) (name : String) :
    Except FlowError String :=
  match lookupKV f.resolved_credentials name with
  | some v => .ok v
  | none => .error (.missingCredential name)

/-- Lookup chain used by `render_template` for a placeholder: per-run
variables, then resolved credentials, then environment values. -/
def scopeLookup (f : ReminderFlow) (vars : List (String × String))
    (name : String) : Option String :=
  match lookupKV vars name with
  | some v => some v
  | none =>
    match lookupKV f.resolved_credentials name with
    | some v => some v
    | none => lookupKV f.env_values name

/-- Character-level scan of `ReminderFlow::render_template`.  The source
repeatedly searches the remainder for the first `"{{"`, then for the first
`"}}"` after it; scanning character by character with a mode flag (`none` =
copying literal text, `some acc` = inside a placeholder, `acc` holding the
characters read so far) visits exactly the same occurrences. -/
def renderScan (look : String → Option String) :
    List Char → Option (List Char) → Except FlowError (List Char)
  | [], none => .ok []
  | [], some _ => .error (.invalidTemplate "unclosed placeholder in template")
  | '{' :: '{' :: rest, none => renderScan look rest (some [])
  | '}' :: '}' :: rest, some acc =>
    let placeholder := trimChars acc
    if placeholder = [] then
      .error (.invalidTemplate "empty placeholder in template")
    else
      match look (String.mk placeholder) with
      | some replacement =>
        (fun out => replacement.data ++ out) <$> renderScan look rest none
      | none => .error (.missingVariable (String.mk placeholder))
  | c :: rest, some acc => renderScan look rest (some (acc ++ [c]))
  | c :: rest, none => (fun out => c :: out) <$> renderScan look rest none

/-- Translation of `ReminderFlow::render_template`. -/
def render_template (f : ReminderFlow) (template : String)
    (vars : List (String × String)) : Except FlowError String :=
  (renderScan (f.scopeLookup vars) template.data none).map String.mk

/-- Translation of `ReminderFlow::resolve_value`. -/
def resolve_value (f : ReminderFlow) (v : ValueRef)
    (vars : List (String × String)) : Except FlowError String :=
  match v with
  | .literal template => f.render_template template vars
  | .env name =>
    match lookupKV f.env_values name with
    | some v => .ok v
    | none => .error (.missingEnvVar name)
  | .credential name => f.credential_value name
  | .var name =>
    match lookupKV vars name with
    | some v => .ok v
    | none => .error (.missingVariable name)

/-- Translation of `ReminderFlow::finalize_credentials`; returns the updated
engine rather than mutating.  The resolved map is built by inserting each
credential in recipe order into a fresh `HashMap` (keys are unique, so the
association list in recipe order is the same map). -/
def resolveCreds (env_values : List (String × String)) :
    List (String × CredentialSource) → Except FlowError (List (String × String))
  | [] => .ok []
  | (name, source) :: rest =>
    match
      (match source with
       | .value val => Except.ok val
       | .envVar env =>
         match lookupKV env_values env with
         | some v => Except.ok v
         | none => Except.error (FlowError.missingEnvVar env)) with
    | .error e => .error e
    | .ok value =>
      match resolveCreds env_values rest with
      | .error e => .error e
      | .ok tail => .ok ((name, value) :: tail)

/-- Translation of `ReminderFlow::finalize_credentials`. -/
def finalize_credentials (f : ReminderFlow) : Except FlowError ReminderFlow :=
  match f.config with
  | none => .ok f
  | some cfg =>
    match resolveCreds f.env_values cfg.credentials with
    | .error e => .error e
    | .ok resolved => .ok { f with resolved_credentials := resolved }

/-- Translation of `ReminderFlow::execute_step`. -/
def execute_step (f : ReminderFlow) (step_index : Nat) :
    Except FlowError (ReminderFlow × Command) :=
  match f.config with
  | none => .error (.invalidConfig "configuration missing")
  | some cfg =>
    match cfg.steps.get? step_index with
    | none =>
      .error (.invalidConfig ("step " ++ Nat.repr step_index ++ " is missing"))
    | some step =>
      match f.run_state with
      | none => .error (.invalidConfig "run state missing")
      | some run =>
        let vars_snapshot := run.vars
        match step with
        | .googleSheet step =>
          match f.resolve_value step.sheet_id vars_snapshot with
          | .error e => .error e
          | .ok sheet_id =>
            match
              (match step.worksheet with
               | some v =>
                 (f.resolve_value v vars_snapshot).map Option.some
               | none => Except.ok Option.none) with
            | .error e => .error e
            | .ok worksheet =>
              match
                (match step.credentials with
                 | some name => (f.credential_value name).map Option.some
                 | none => Except.ok Option.none) with
              | .error e => .error e
              | .ok credentials =>
                let (f, tag) := f.allocTag
                let pending : PendingStep :=
                  { step_index := step_index
                    tag := tag
                    store_as := some step.store_as
                    require_value := true }
                let eff := Effect.fetchGoogleSheetCell
                  { sheet_id := sheet_id
                    worksheet := worksheet
                    cell := step.cell
                    credentials := credentials
                    tag := tag }
                let f := { f with
                  run_state := f.run_state.map
                    (fun run => { run with pending := some pending }) }
                .ok (f, .doEff eff)
        | .email step =>
          match f.resolve_value step.account vars_snapshot with
          | .error e => .error e
          | .ok account =>
            match f.resolve_value step.regex vars_snapshot with
            | .error e => .error e
            | .ok regex =>
              match
                (match step.credentials with
                 | some name => (f.credential_value name).map Option.some
                 | none => Except.ok Option.none) with
              | .error e => .error e
              | .ok credentials =>
                let (f, tag) := f.allocTag
                let pending : PendingStep :=
                  { step_index := step_index
                    tag := tag
                    store_as := step.store_as
                    require_value := step.store_as.isSome }
                let eff := Effect.searchEmails
                  { account := account
                    field := step.field
                    regex := regex
                    credentials := credentials
                    tag := tag }
                let f := { f with
                  run_state := f.run_state.map
                    (fun run => { run with pending := some pending }) }
                .ok (f, .doEff eff)
        | .telegram step =>
          match f.resolve_value step.chat_id vars_snapshot with
          | .error e => .error e
          | .ok chat_id =>
            match f.resolve_value step.message vars_snapshot with
            | .error e => .error e
            | .ok message =>
              match
                (match step.credentials with
                 | some name => (f.credential_value name).map Option.some
                 | none => Except.ok Option.none) with
              | .error e => .error e
              | .ok credentials =>
                let (f, tag) := f.allocTag
                let pending : PendingStep :=
                  { step_index := step_index
                    tag := tag
                    store_as := none
                    require_value := false }
                let eff := Effect.sendTelegramMessage
                  { chat_id := chat_id
                    message := message
                    credentials := credentials
                    tag := tag }
                let f := { f with
                  run_state := f.run_state.map
                    (fun run => { run with pending := some pending }) }
                .ok (f, .doEff eff)

/-- Translation of `ReminderFlow::advance_run`. -/
def advance_run (f : ReminderFlow) : ReminderFlow × Command :=
  match f.config with
  | none => (f, .wait)
  | some cfg =>
    match f.run_state with
    | none => (f, .wait)
    | some run =>
      if run.pending.isSome then (f, .wait)
      else if cfg.steps.length ≤ run.step_index then
        let f := { f with run_state := none }
        let (f, tag) := f.allocTag
        let f := { f with stage := .waitingTimer tag }
        (f, .doEff (.startTimer cfg.run_every tag))
      else
        match f.execute_step run.step_index with
        | .ok (f, cmd) => (f, cmd)
        | .error err => f.finish_error err

/-- Translation of `ReminderFlow::start_run`. -/
def start_run (f : ReminderFlow) : ReminderFlow × Command :=
  match f.config with
  | none => (f, .wait)
  | some _ =>
    let f := { f with
      run_state := some { step_index := 0, vars := [], pending := none }
      stage := .running }
    f.advance_run

/-- Translation of `ReminderFlow::prepare_env_requests`. -/
def prepare_env_requests (f : ReminderFlow) : ReminderFlow :=
  let f := { f with
    pending_env := []
    env_values := []
    resolved_credentials := []
    current_env := none }
  match f.config with
  | some cfg => { f with pending_env := cfg.env_requests }
  | none => f

/-- Translation of `ReminderFlow::fetch_next_env_or_start_run`. -/
def fetch_next_env_or_start_run (f : ReminderFlow) : ReminderFlow × Command :=
  if f.current_env.isSome then (f, .wait)
  else
    match f.pending_env with
    | name :: rest =>
      let f := { f with pending_env := rest }
      let (f, tag) := f.allocTag
      let f := { f with current_env := some (name, tag) }
      (f, .doEff (.readEnvVar name tag))
    | [] =>
      match f.finalize_credentials with
      | .ok f => f.start_run
      | .error err => f.finish_error err

/-- Translation of `ReminderFlow::start`. -/
def start (f : ReminderFlow) : ReminderFlow × Command :=
  match f.stage with
  | .init =>
    let (f, tag) := f.allocTag
    let f := { f with stage := .waitingConfig tag }
    (f, .doEff (.loadConfig CONFIG_DISCOVERY tag))
  | .done res => (f, .done res)
  | _ => (f, .wait)

/-- Translation of `ReminderFlow::on_event`; `decode` abstracts the external
`serde_yaml` deserializer used by `FlowConfig::from_yaml`. -/
def on_event (decode : String → Except String RawConfig)
    (f : ReminderFlow) (event : Event) : ReminderFlow × Command :=
  match f.stage with
  | .waitingConfig tag =>
    match event with
    | .configLoaded t _path contents =>
      if tag = t then
        match FlowConfig.from_yaml decode contents with
        | .ok cfg =>
          let f := { f with config := some cfg }
          let f := f.prepare_env_requests
          let f := { f with stage := .loadingEnv }
          f.fetch_next_env_or_start_run
        | .error err => f.finish_error err
      else (f, .wait)
    | .configLoadFailed t error =>
      if tag = t then f.finish_error (.configLoad error) else (f, .wait)
    | _ => (f, .wait)
  | .loadingEnv =>
    match event with
    | .envVarLoaded tag name value =>
      match f.current_env with
      | some (expected_name, expected_tag) =>
        if expected_tag ≠ tag ∨ expected_name ≠ name then (f, .wait)
        else
          let f := { f with current_env := none }
          match value with
          | some v =>
            let f := { f with env_values := insertKV f.env_values name v }
            f.fetch_next_env_or_start_run
          | none => f.finish_error (.missingEnvVar expected_name)
      | none => (f, .wait)
    | _ => (f, .wait)
  | .running =>
    match event with
    | .stepCompleted tag value =>
      match f.run_state with
      | some run =>
        match run.pending with
        | some pending =>
          if pending.tag ≠ tag then (f, .wait)
          else
            let run := { run with pending := none }
            match pending.store_as with
            | some name =>
              match value with
              | some val =>
                let run :=
                  { run with vars := insertKV run.vars name val }
                let run := { run with step_index := run.step_index + 1 }
                advance_run { f with run_state := some run }
              | none =>
                finish_error { f with run_state := some run }
                  (.stepFailure pending.step_index
                    "missing value in step result")
            | none =>
              if pending.require_value ∧ value = none then
                finish_error { f with run_state := some run }
                  (.stepFailure pending.step_index
                    "missing value in step result")
              else
                let run := { run with step_index := run.step_index + 1 }
                advance_run { f with run_state := some run }
        | none => (f, .wait)
      | none => (f, .wait)
    | .stepFailed tag error =>
      match f.run_state with
      | some run =>
        match run.pending with
        | some pending =>
          if pending.tag = tag then
            f.finish_error (.stepFailure pending.step_index error)
          else (f, .wait)
        | none => (f, .wait)
      | none => (f, .wait)
    | _ => (f, .wait)
  | .waitingTimer tag =>
    match event with
    | .timerFired t => if tag = t then f.start_run else (f, .wait)
    | _ => (f, .wait)
  | .init => (f, .wait)
  | .done res => (f, .done res)

end ReminderFlow

/-! ## The section-6 example recipe -/

/-- Text of the section-6 example recipe (the reference test's
`config_yaml`). -/
def exampleYaml : String :=
  "run_every: \"10m\"\n" ++
  "credentials:\n" ++
  "  google_docs:\n" ++
  "    env: GOOGLE_DOCS_TOKEN\n" ++
  "  telegram_bot:\n" ++
  "    env: TELEGRAM_BOT_TOKEN\n" ++
  "steps:\n" ++
  "  - type: google_sheet\n" ++
  "    sheet_id:\n" ++
  "      env: SHEET_ID\n" ++
  "    cell:\n" ++
  "      row: 2\n" ++
  "      column: 3\n" ++
  "    store_as: sheet_value\n" ++
  "    credentials: google_docs\n" ++
  "  - type: email\n" ++
  "    account: \"alerts@example.com\"\n" ++
  "    field: subject\n" ++
  "    regex: \"Alert \x7b\x7bsheet_value\x7d\x7d\"\n" ++
  "    store_as: email_subject\n" ++
  "  - type: telegram\n" ++
  "    chat_id: \"@channel\"\n" ++
  "    message: \"We saw \x7b\x7bemail_subject\x7d\x7d\"\n" ++
  "    credentials: telegram_bot\n"

/-- Modelled from the spec: the `RawConfig` that the external `serde_yaml`
deserializer produces for the section-6 recipe text (`serde_yaml` itself is
not part of this repository).  The `credentials` map is key-sorted as a
`BTreeMap`; a bare string scalar deserializes to `ValueRef.literal` and a
`\x7benv: NAME\x7d` map to `ValueRef.env` via the source's `ValueRef`
visitor. -/
def exampleRaw : RawConfig :=
  { run_every := "10m"
    credentials :=
      [("google_docs",
        { value := none, env := some "GOOGLE_DOCS_TOKEN",
          credential := none, var := none }),
       ("telegram_bot",
        { value := none, env := some "TELEGRAM_BOT_TOKEN",
          credential := none, var := none })]
    steps :=
      [.googleSheet (.env "SHEET_ID") none ⟨2, 3⟩ "sheet_value"
        (some "google_docs"),
       .email (.literal "alerts@example.com") .subject
        (.literal "Alert \x7b\x7bsheet_value\x7d\x7d")
        (some "email_subject") none,
       .telegram (.literal "@channel")
        (.literal "We saw \x7b\x7bemail_subject\x7d\x7d")
        (some "telegram_bot")] }

/-- Modelled from the spec: the external YAML deserializer, defined on the
section-6 recipe text only. -/
def exampleDecode : String → Except String RawConfig := fun s =>
  if s = exampleYaml then .ok exampleRaw else .error "unsupported input"

/-- Feed a list of events to the engine, collecting the returned commands. -/
def runEvents (decode : String → Except String RawConfig)
    (f : ReminderFlow) : List Event → ReminderFlow × List Command
  | [] => (f, [])
  | e :: rest =>
    let (f', cmd) := f.on_event decode e
    let (f'', cmds) := runEvents decode f' rest
    (f'', cmd :: cmds)

/-- Drive a fresh engine: `start()` followed by the given events; collect
every returned command. -/
def driveFlow (decode : String → Except String RawConfig)
    (events : List Event) : List Command :=
  let (f, cmd) := ReminderFlow.new.start
  cmd :: (runEvents decode f events).2

/-- The happy-path event feed of Scenario A. -/
def scenarioAEvents : List Event :=
  [.configLoaded ⟨1⟩ "/tmp/remind.yaml" exampleYaml,
   .envVarLoaded ⟨2⟩ "GOOGLE_DOCS_TOKEN" (some "docs-cred"),
   .envVarLoaded ⟨3⟩ "SHEET_ID" (some "sheet-123"),
   .envVarLoaded ⟨4⟩ "TELEGRAM_BOT_TOKEN" (some "tg-token"),
   .stepCompleted ⟨5⟩ (some "2024-05-01"),
   .stepCompleted ⟨6⟩ (some "Alert 2024-05-01"),
   .stepCompleted ⟨7⟩ none,
   .timerFired ⟨8⟩]

/-- The command sequence Scenario A prescribes. -/
def scenarioACommands : List Command :=
  [.doEff (.loadConfig CONFIG_DISCOVERY ⟨1⟩),
   .doEff (.readEnvVar "GOOGLE_DOCS_TOKEN" ⟨2⟩),
   .doEff (.readEnvVar "SHEET_ID" ⟨3⟩),
   .doEff (.readEnvVar "TELEGRAM_BOT_TOKEN" ⟨4⟩),
   .doEff (.fetchGoogleSheetCell
     { sheet_id := "sheet-123", worksheet := none, cell := ⟨2, 3⟩,
       credentials := some "docs-cred", tag := ⟨5⟩ }),
   .doEff (.searchEmails
     { account := "alerts@example.com", field := .subject,
       regex := "Alert 2024-05-01", credentials := none, tag := ⟨6⟩ }),
   .doEff (.sendTelegramMessage
     { chat_id := "@channel", message := "We saw Alert 2024-05-01",
       credentials := some "tg-token", tag := ⟨7⟩ }),
   .doEff (.startTimer 600 ⟨8⟩),
   .doEff (.fetchGoogleSheetCell
     { sheet_id := "sheet-123", worksheet := none, cell := ⟨2, 3⟩,
       credentials := some "docs-cred", tag := ⟨9⟩ })]

/-! ## Auxiliary observations used by the statements -/

/-- The correlation tag carried by an event. -/
def eventTag : Event → EffId
  | .configLoaded tag _ _ => tag
  | .configLoadFailed tag _ => tag
  | .envVarLoaded tag _ _ => tag
  | .stepCompleted tag _ => tag
  | .stepFailed tag _ => tag
  | .timerFired tag => tag

/-- The correlation tag carried by an effect. -/
def effectTag : Effect → EffId
  | .loadConfig _ tag => tag
  | .readEnvVar _ tag => tag
  | .fetchGoogleSheetCell req => req.tag
  | .searchEmails req => req.tag
  | .sendTelegramMessage req => req.tag
  | .startTimer _ tag => tag

/-- The tag of the single outstanding effect the engine is currently waiting
for, if any: the `WaitingConfig` tag, the current env request's tag, the
pending step's tag, or the `WaitingTimer` tag. -/
def ReminderFlow.expectedTag (f : ReminderFlow) : Option EffId :=
  match f.stage with
  | .waitingConfig tag => some tag
  | .loadingEnv => f.current_env.map Prod.snd
  | .running =>
    match f.run_state with
    | some run => run.pending.map PendingStep.tag
    | none => none
  | .waitingTimer tag => some tag
  | .init => none
  | .done _ => none

/-- Stages in which the engine is mid-flight (neither `Init` nor `Done`). -/
def Stage.isInProgress : Stage → Bool
  | .waitingConfig _ => true
  | .loadingEnv => true
  | .running => true
  | .waitingTimer _ => true
  | .init => false
  | .done _ => false

/-- Drive the environment-loading phase: as long as the engine's last command
is a `ReadEnvVar` request, answer it with `values` applied to the requested
name, and record the requested names in order. -/
def envPhaseTrace (decode : String → Except String RawConfig)
    (values : String → String) :
    Nat → ReminderFlow → Command → List String
  | 0, _, _ => []
  | fuel + 1, f, .doEff (.readEnvVar name tag) =>
    let r := f.on_event decode (.envVarLoaded tag name (some (values name)))
    name :: envPhaseTrace decode values fuel r.1 r.2
  | _ + 1, _, _ => []

/-- Whether a character list contains two consecutive opening braces
(a placeholder opener). -/
def hasOpen : List Char → Bool
  | '{' :: '{' :: _ => true
  | _ :: rest => hasOpen rest
  | [] => false

/-- Whether a character list contains two consecutive closing braces
(a placeholder closer). -/
def hasClose : List Char → Bool
  | '}' :: '}' :: _ => true
  | _ :: rest => hasClose rest
  | [] => false

/-! ## Serialization back to the structured format (for the round-trip) -/

/-- Decimal digits of `n`, most significant first, with explicit structural
fuel (any fuel above `n` is enough). -/
def natDigitsAux : Nat → Nat → List Char
  | 0, _ => []
  | fuel + 1, n =>
    if n < 10 then [Char.ofNat (48 + n)]
    else natDigitsAux fuel (n / 10) ++ [Char.ofNat (48 + n % 10)]

/-- Decimal representation of `n` as characters. -/
def natDigits (n : Nat) : List Char :=
  natDigitsAux (n + 1) n

/-- Modelled from the spec: serialization of a duration back to the
structured format (the repository has no serializer).  A duration of `n`
seconds is written as the decimal digits of `n` followed by the unit `s`. -/
def durationToStr (secs : Nat) : String :=
  String.mk (natDigits secs ++ ['s'])

/-- Modelled from the spec: serialization of a credential source back to a
structured-format map with exactly one of the `value` and `env` fields
set. -/
def CredentialSource.toMap : CredentialSource → ValueMap
  | .value v => { value := some v, env := none, credential := none, var := none }
  | .envVar e => { value := none, env := some e, credential := none, var := none }

/-- Modelled from the spec: serialization of a value reference back to a
structured-format map with exactly one source field set. -/
def ValueRef.toMap : ValueRef → ValueMap
  | .literal v => { value := some v, env := none, credential := none, var := none }
  | .env e => { value := none, env := some e, credential := none, var := none }
  | .credential c => { value := none, env := none, credential := some c, var := none }
  | .var w => { value := none, env := none, credential := none, var := some w }

/-- Modelled from the spec: serialization of a step back to a raw step of the
structured format (the inverse of the `TryFrom<RawStep>` conversion). -/
def RawStep.ofStep : Step → RawStep
  | .googleSheet s =>
    .googleSheet s.sheet_id s.worksheet s.cell s.store_as s.credentials
  | .email s => .email s.account s.field s.regex s.store_as s.credentials
  | .telegram s => .telegram s.chat_id s.message s.credentials

/-- Modelled from the spec: serializing a `FlowConfig` back to the structured
configuration format, at the post-deserializer (`RawConfig`) level: the
duration is written out as text, each credential as its one-field map, each
step as a raw step. -/
def FlowConfig.toRaw (cfg : FlowConfig) : RawConfig :=
  { run_every := durationToStr cfg.run_every
    credentials := cfg.credentials.map (fun p => (p.1, p.2.toMap))
    steps := cfg.steps.map RawStep.ofStep }

/-- Claim C1: driving a fresh engine with `start()` and the Scenario A
happy-path events for the section-6 example recipe produces exactly the
prescribed command sequence: `LoadConfig` with tag 1; after `ConfigLoaded`,
`ReadEnvVar` for GOOGLE_DOCS_TOKEN, SHEET_ID, TELEGRAM_BOT_TOKEN with tags
2, 3, 4 in that order; then `FetchGoogleSheetCell` (tag 5, sheet
"sheet-123", cell (2,3), credentials "docs-cred"), `SearchEmails` (tag 6,
regex "Alert 2024-05-01", no credentials), `SendTelegramMessage` (tag 7,
message "We saw Alert 2024-05-01", credentials "tg-token"), `StartTimer`
(tag 8, 600 seconds); and after `TimerFired` with tag 8, cycle 2 begins
with `FetchGoogleSheetCell` carrying tag 9 and the same resolved sheet id
and credentials. -/
theorem scenarioA_exact_trace :
    driveFlow exampleDecode scenarioAEvents = scenarioACommands := by
  set_option maxRecDepth 100000 in decide

/-- Claim C10: calling `start()` while the engine is in any stage other than
`Init` or `Done` (that is, `WaitingConfig`, `LoadingEnv`, `Running` or
`WaitingTimer`) returns `Wait` and leaves the whole engine state unchanged
(no field is mutated) and emits no effect. -/
theorem start_mid_flight_is_noop (f : ReminderFlow)
    (h : f.stage.isInProgress = true) :
    f.start = (f, Command.wait) := by
  cases hs : f.stage <;>
    simp [ReminderFlow.start, Stage.isInProgress, hs] at h ⊢

/-- Witness for C10 at a concrete mid-flight state. -/
theorem start_mid_flight_is_noop_witness :
    ({ ReminderFlow.new with stage := Stage.loadingEnv } : ReminderFlow).start
      = ({ ReminderFlow.new with stage := Stage.loadingEnv }, Command.wait) :=
  start_mid_flight_is_noop _ (by decide)

/-- Claim C2 as stated is false at a reachable `Done` state: after
`ConfigLoadFailed` drives a fresh started engine into
`Done(Err("failed to load configuration: missing"))`, delivering an event
returns `Done(res)` again — not `Wait` as the claim requires. -/
theorem done_event_not_wait_counterexample :
    ((runEvents exampleDecode (ReminderFlow.new.start).1
        [.configLoadFailed ⟨1⟩ "missing"]).1.stage
      = Stage.done (.error "failed to load configuration: missing")) ∧
    ((runEvents exampleDecode (ReminderFlow.new.start).1
        [.configLoadFailed ⟨1⟩ "missing"]).1.on_event exampleDecode
        (.timerFired ⟨2⟩)).2
      ≠ Command.wait := by
  decide

/-- Claim C2 (amended): the `Done` stage is terminal and absorbing — once the
engine is in `Done(res)`, `start()` returns `Done(res)` without mutating any
state, and every event delivered via `on_event` returns `Done(res)` (not
`Wait`); in both cases the state is completely unchanged and no effect is
emitted. -/
theorem done_absorbing (decode : String → Except String RawConfig)
    (f : ReminderFlow) (res : Except String Unit) (e : Event)
    (h : f.stage = Stage.done res) :
    f.start = (f, Command.done res) ∧
    f.on_event decode e = (f, Command.done res) := by
  constructor
  · simp [ReminderFlow.start, h]
  · simp [ReminderFlow.on_event, h]

/-- Witness for the amended C2 at a concrete `Done` state. -/
theorem done_absorbing_witness :
    ({ ReminderFlow.new with stage := Stage.done (.ok ()) } : ReminderFlow).start
      = ({ ReminderFlow.new with stage := Stage.done (.ok ()) },
        Command.done (.ok ())) ∧
    ({ ReminderFlow.new with stage := Stage.done (.ok ()) } : ReminderFlow).on_event
        exampleDecode (.timerFired ⟨1⟩)
      = ({ ReminderFlow.new with stage := Stage.done (.ok ()) },
        Command.done (.ok ())) :=
  done_absorbing exampleDecode _ (.ok ()) (.timerFired ⟨1⟩) rfl

/-! ## Helper lemmas about the transition functions -/

theorem finish_error_spec (f : ReminderFlow) (err : FlowError) :
    f.finish_error err =
      ({ f with stage := .done (.error err.toMessage), run_state := none },
        .done (.error err.toMessage)) := by
  simp [ReminderFlow.finish_error]

theorem finalize_credentials_spec {f f₂ : ReminderFlow}
    (h : f.finalize_credentials = .ok f₂) :
    f₂.next_tag = f.next_tag ∧ f₂.stage = f.stage ∧ f₂.config = f.config ∧
    f₂.env_values = f.env_values ∧ f₂.run_state = f.run_state ∧
    f₂.pending_env = f.pending_env ∧ f₂.current_env = f.current_env := by
  unfold ReminderFlow.finalize_credentials at h
  split at h
  · cases h; exact ⟨rfl, rfl, rfl, rfl, rfl, rfl, rfl⟩
  · split at h
    · cases h
    · cases h; exact ⟨rfl, rfl, rfl, rfl, rfl, rfl, rfl⟩

theorem execute_step_spec {f : ReminderFlow} {i : Nat} {f' : ReminderFlow}
    {cmd : Command} (h : f.execute_step i = .ok (f', cmd)) :
    (∃ eff, cmd = .doEff eff ∧ effectTag eff = ⟨f.next_tag⟩ ∧
      (∀ n t, eff ≠ .readEnvVar n t) ∧
      (∀ d t, eff ≠ .loadConfig d t) ∧
      (∀ dur t, eff ≠ .startTimer dur t)) ∧
    f'.next_tag = f.next_tag + 1 ∧
    f'.env_values = f.env_values ∧
    f'.resolved_credentials = f.resolved_credentials ∧
    f'.stage = f.stage ∧ f'.config = f.config := by
  unfold ReminderFlow.execute_step at h
  dsimp only [ReminderFlow.allocTag] at h
  repeat' split at h
  all_goals
    first
    | exact Except.noConfusion h
    | (simp only [Except.ok.injEq, Prod.mk.injEq] at h
       obtain ⟨h1, h2⟩ := h
       subst h1; subst h2
       exact ⟨⟨_, rfl, rfl, by simp, by simp, by simp⟩, rfl, rfl, rfl, rfl, rfl⟩)

theorem advance_run_spec (f f' : ReminderFlow) (cmd : Command)
    (h : f.advance_run = (f', cmd)) :
    (∀ eff, cmd = .doEff eff → effectTag eff = ⟨f.next_tag⟩ ∧
      f'.next_tag = f.next_tag + 1 ∧
      (∀ n t, eff ≠ .readEnvVar n t) ∧ (∀ d t, eff ≠ .loadConfig d t)) ∧
    f.next_tag ≤ f'.next_tag ∧
    f'.env_values = f.env_values ∧
    f'.resolved_credentials = f.resolved_credentials ∧
    f'.config = f.config := by
  unfold ReminderFlow.advance_run at h
  dsimp only [ReminderFlow.allocTag] at h
  repeat' split at h
  all_goals
    first
    | (simp only [finish_error_spec, Prod.mk.injEq] at h
       obtain ⟨h1, h2⟩ := h
       subst h1; subst h2
       first
       | exact ⟨by simp, le_rfl, rfl, rfl, rfl⟩
       | (refine ⟨?_, by simp, rfl, rfl, rfl⟩
          intro e' he'
          injection he' with h3
          subst h3
          exact ⟨rfl, rfl, by simp, by simp⟩))
    | (rename_i heq
       simp only [Prod.mk.injEq] at h
       obtain ⟨h1, h2⟩ := h
       subst h1; subst h2
       obtain ⟨⟨eff, he, htag, hnr, hnl, _⟩, hnext, henv, hcred, _, hcfg⟩ :=
         execute_step_spec heq
       subst he
       refine ⟨?_, by omega, henv, hcred, hcfg⟩
       intro e' he'
       injection he' with h3
       subst h3
       exact ⟨htag, hnext, hnr, hnl⟩)

theorem start_run_spec (f f' : ReminderFlow) (cmd : Command)
    (h : f.start_run = (f', cmd)) :
    (∀ eff, cmd = .doEff eff → effectTag eff = ⟨f.next_tag⟩ ∧
      f'.next_tag = f.next_tag + 1 ∧
      (∀ n t, eff ≠ .readEnvVar n t) ∧ (∀ d t, eff ≠ .loadConfig d t)) ∧
    f.next_tag ≤ f'.next_tag ∧
    f'.env_values = f.env_values ∧
    f'.resolved_credentials = f.resolved_credentials ∧
    f'.config = f.config := by
  unfold ReminderFlow.start_run at h
  split at h
  · simp only [Prod.mk.injEq] at h
    obtain ⟨h1, h2⟩ := h
    subst h1; subst h2
    exact ⟨by simp, le_rfl, rfl, rfl, rfl⟩
  · dsimp only at h
    have hs := advance_run_spec _ _ _ h
    exact hs

theorem fetch_next_spec (f f' : ReminderFlow) (cmd : Command)
    (h : f.fetch_next_env_or_start_run = (f', cmd)) :
    (∀ eff, cmd = .doEff eff → effectTag eff = ⟨f.next_tag⟩ ∧
      f'.next_tag = f.next_tag + 1) ∧
    f.next_tag ≤ f'.next_tag := by
  unfold ReminderFlow.fetch_next_env_or_start_run at h
  dsimp only [ReminderFlow.allocTag] at h
  repeat' split at h
  all_goals
    first
    | (simp only [finish_error_spec, Prod.mk.injEq] at h
       obtain ⟨h1, h2⟩ := h
       subst h1; subst h2
       first
       | exact ⟨by simp, le_rfl⟩
       | (refine ⟨?_, by simp⟩
          intro e' he'
          injection he' with h3
          subst h3
          exact ⟨rfl, rfl⟩))
    | (rename_i f₂ heq
       obtain ⟨hnt, _, _, _, _, _, _⟩ := finalize_credentials_spec heq
       obtain ⟨hdo, hle, _, _, _⟩ := start_run_spec _ _ _ h
       rw [hnt] at hdo hle
       exact ⟨fun e' he' => ⟨(hdo e' he').1, (hdo e' he').2.1⟩, hle⟩)

theorem start_tag_spec (f f' : ReminderFlow) (cmd : Command)
    (h : f.start = (f', cmd)) :
    (∀ eff, cmd = .doEff eff → effectTag eff = ⟨f.next_tag⟩ ∧
      f'.next_tag = f.next_tag + 1) ∧
    f.next_tag ≤ f'.next_tag := by
  unfold ReminderFlow.start at h
  dsimp only [ReminderFlow.allocTag] at h
  repeat' split at h
  all_goals
    simp only [Prod.mk.injEq] at h
  all_goals
    obtain ⟨h1, h2⟩ := h
  all_goals
    subst h1; subst h2
  all_goals
    first
    | exact ⟨by simp, le_rfl⟩
    | (refine ⟨?_, by simp⟩
       intro e' he'
       injection he' with h3
       subst h3
       exact ⟨rfl, rfl⟩)

theorem on_event_tag_spec (decode : String → Except String RawConfig)
    (f : ReminderFlow) (e : Event) (f' : ReminderFlow) (cmd : Command)
    (h : f.on_event decode e = (f', cmd)) :
    (∀ eff, cmd = .doEff eff → effectTag eff = ⟨f.next_tag⟩ ∧
      f'.next_tag = f.next_tag + 1) ∧
    f.next_tag ≤ f'.next_tag := by
  unfold ReminderFlow.on_event at h
  dsimp only at h
  repeat' split at h
  all_goals
    first
    | (simp only [finish_error_spec, Prod.mk.injEq] at h
       obtain ⟨h1, h2⟩ := h
       subst h1; subst h2
       exact ⟨by simp, le_rfl⟩)
    | (have hs := fetch_next_spec _ _ _ h
       exact hs)
    | (have hs := advance_run_spec _ _ _ h
       exact ⟨fun e' he' => ⟨(hs.1 e' he').1, (hs.1 e' he').2.1⟩, hs.2.1⟩)
    | (have hs := start_run_spec _ _ _ h
       exact ⟨fun e' he' => ⟨(hs.1 e' he').1, (hs.1 e' he').2.1⟩, hs.2.1⟩)

theorem mismatch_wait (decode : String → Except String RawConfig)
    (f : ReminderFlow) (e : Event) (t : EffId)
    (hexp : f.expectedTag = some t) (hne : eventTag e ≠ t) :
    f.on_event decode e = (f, .wait) := by
  unfold ReminderFlow.on_event
  cases hs : f.stage
  case init =>
    simp [ReminderFlow.expectedTag, hs] at hexp
  case done res =>
    simp [ReminderFlow.expectedTag, hs] at hexp
  case waitingConfig tg =>
    simp only [ReminderFlow.expectedTag, hs, Option.some.injEq] at hexp
    subst hexp
    cases e <;> try rfl
    case configLoaded t0 p c =>
      dsimp only
      rw [if_neg (fun hh => hne hh.symm)]
    case configLoadFailed t0 err =>
      dsimp only
      rw [if_neg (fun hh => hne hh.symm)]
  case loadingEnv =>
    cases hc : f.current_env with
    | none =>
      simp [ReminderFlow.expectedTag, hs, hc] at hexp
    | some p =>
      obtain ⟨n, tg⟩ := p
      simp only [ReminderFlow.expectedTag, hs, hc, Option.map_some',
        Option.some.injEq] at hexp
      cases e <;> try rfl
      case envVarLoaded t0 name value =>
        dsimp only
        rw [if_pos (Or.inl (fun hh => hne (hh.symm.trans hexp)))]
  case running =>
    cases hr : f.run_state with
    | none =>
      simp [ReminderFlow.expectedTag, hs, hr] at hexp
    | some run =>
      cases hp : run.pending with
      | none =>
        simp [ReminderFlow.expectedTag, hs, hr, hp] at hexp
      | some p =>
        simp only [ReminderFlow.expectedTag, hs, hr, hp, Option.map_some',
          Option.some.injEq] at hexp
        cases e <;> try rfl
        case stepCompleted t0 value =>
          dsimp only
          rw [hp]
          dsimp only
          rw [if_pos (fun hh => hne (hh.symm.trans hexp))]
        case stepFailed t0 err =>
          dsimp only
          rw [hp]
          dsimp only
          rw [if_neg (fun hh => hne (hh.symm.trans hexp))]
  case waitingTimer tg =>
    simp only [ReminderFlow.expectedTag, hs, Option.some.injEq] at hexp
    subst hexp
    cases e <;> try rfl
    case timerFired t0 =>
      dsimp only
      rw [if_neg (fun hh => hne hh.symm)]

/-- Claim C3: every tag attached to an emitted effect is unique over the
lifetime of one engine instance — tags are assigned from a counter starting
at 1 (a fresh engine's counter is 1; every emitted effect carries exactly
the current counter value and bumps it by one; transitions that emit no
effect leave the counter in place, so the counter never decreases and
emitted tags are strictly increasing, hence pairwise distinct) — and any
event whose tag differs from the engine's currently expected tag (the
`WaitingConfig` tag, the current env request's tag, the pending step's tag,
or the `WaitingTimer` tag) returns `Wait` and leaves the engine state
completely unchanged; in particular a re-delivered, already-accepted
`StepCompleted` no longer matches the expected tag and returns `Wait`. -/
theorem tag_discipline_and_mismatch :
    ReminderFlow.new.next_tag = 1 ∧
    (∀ (f f' : ReminderFlow) (cmd : Command), f.start = (f', cmd) →
      (∀ eff, cmd = .doEff eff → effectTag eff = ⟨f.next_tag⟩ ∧
        f'.next_tag = f.next_tag + 1) ∧
      f.next_tag ≤ f'.next_tag) ∧
    (∀ (decode : String → Except String RawConfig) (f : ReminderFlow)
      (e : Event) (f' : ReminderFlow) (cmd : Command),
      f.on_event decode e = (f', cmd) →
      (∀ eff, cmd = .doEff eff → effectTag eff = ⟨f.next_tag⟩ ∧
        f'.next_tag = f.next_tag + 1) ∧
      f.next_tag ≤ f'.next_tag) ∧
    (∀ (decode : String → Except String RawConfig) (f : ReminderFlow)
      (e : Event) (t : EffId),
      f.expectedTag = some t → eventTag e ≠ t →
      f.on_event decode e = (f, .wait)) :=
  ⟨rfl,
   fun _ _ _ h => start_tag_spec _ _ _ h,
   fun _ _ _ _ _ h => on_event_tag_spec _ _ _ _ _ h,
   fun _ _ _ _ hexp hne => mismatch_wait _ _ _ _ hexp hne⟩

/-- Witness for C3: the first transition of a fresh engine emits tag 1 and
bumps the counter to 2, and a mismatched event (tag 2 while tag 1 is
expected) is ignored with `Wait` and no state change. -/
theorem tag_discipline_and_mismatch_witness :
    (effectTag (.loadConfig CONFIG_DISCOVERY ⟨1⟩) = ⟨ReminderFlow.new.next_tag⟩ ∧
      (ReminderFlow.new.start).1.next_tag = ReminderFlow.new.next_tag + 1) ∧
    (ReminderFlow.new.start).1.on_event exampleDecode (.timerFired ⟨2⟩)
      = ((ReminderFlow.new.start).1, Command.wait) :=
  ⟨(tag_discipline_and_mismatch.2.1 ReminderFlow.new
      (ReminderFlow.new.start).1 (ReminderFlow.new.start).2 rfl).1
      (.loadConfig CONFIG_DISCOVERY ⟨1⟩) (by decide),
   tag_discipline_and_mismatch.2.2.2 exampleDecode
      (ReminderFlow.new.start).1 (.timerFired ⟨2⟩) ⟨1⟩ (by decide) (by decide)⟩


/-- Claim C8: in `Running`, a `StepCompleted` whose tag matches the pending
step clears the pending record and: with `store_as` set, a `Some(v)` value is
required (a `None` value yields `Done(Err)` with a `StepFailure` at the
pending step's index and message "missing value in step result") and `v` is
inserted into the variable scope; with no `store_as`, if `require_value`
holds and the value is `None` the same `StepFailure` results, and otherwise
the value is discarded; on success `step_index` is incremented and the run
advances via `advance_run`.  A `StepFailure` is rendered for the host as
"step <n> failed: <message>" with `n` the 1-based step number. -/
theorem step_completed_semantics (decode : String → Except String RawConfig)
    (f : ReminderFlow) (run : RunState) (p : PendingStep)
    (value : Option String)
    (hs : f.stage = .running) (hr : f.run_state = some run)
    (hp : run.pending = some p) :
    (∀ name, p.store_as = some name →
      (∀ v, value = some v →
        f.on_event decode (.stepCompleted p.tag value) =
          ReminderFlow.advance_run
            { f with
              run_state :=
                some ⟨run.step_index + 1, insertKV run.vars name v, none⟩ }) ∧
      (value = none →
        f.on_event decode (.stepCompleted p.tag value) =
          ({ f with
              stage := .done (.error (FlowError.toMessage
                (.stepFailure p.step_index "missing value in step result"))),
              run_state := none },
            .done (.error (FlowError.toMessage
              (.stepFailure p.step_index "missing value in step result")))))) ∧
    (p.store_as = none →
      (p.require_value = true → value = none →
        f.on_event decode (.stepCompleted p.tag value) =
          ({ f with
              stage := .done (.error (FlowError.toMessage
                (.stepFailure p.step_index "missing value in step result"))),
              run_state := none },
            .done (.error (FlowError.toMessage
              (.stepFailure p.step_index "missing value in step result"))))) ∧
      ((p.require_value = false ∨ value ≠ none) →
        f.on_event decode (.stepCompleted p.tag value) =
          ReminderFlow.advance_run
            { f with
              run_state := some ⟨run.step_index + 1, run.vars, none⟩ })) ∧
    (∀ i msg, FlowError.toMessage (.stepFailure i msg)
      = "step " ++ Nat.repr (i + 1) ++ " failed: " ++ msg) := by
  refine ⟨?_, ?_, fun i msg => rfl⟩
  · intro name hname
    constructor
    · intro v hv
      subst hv
      simp [ReminderFlow.on_event, hs, hr, hp, hname]
    · intro hv
      subst hv
      simp [ReminderFlow.on_event, hs, hr, hp, hname, finish_error_spec]
  · intro hname
    constructor
    · intro hreq hv
      subst hv
      simp [ReminderFlow.on_event, hs, hr, hp, hname, hreq, finish_error_spec]
    · intro hor
      rcases hor with h1 | h2
      · simp [ReminderFlow.on_event, hs, hr, hp, hname, h1]
      · cases value with
        | none => exact absurd rfl h2
        | some v => simp [ReminderFlow.on_event, hs, hr, hp, hname]

/-- Witness for C8 at a concrete running state with a pending
value-storing step. -/
theorem step_completed_semantics_witness :
    ({ ReminderFlow.new with
        stage := .running,
        config := some ⟨60, [], []⟩,
        run_state := some ⟨0, [], some ⟨0, ⟨5⟩, some "x", true⟩⟩ }
      : ReminderFlow).on_event exampleDecode (.stepCompleted ⟨5⟩ (some "v")) =
      ReminderFlow.advance_run { ReminderFlow.new with
        stage := .running,
        config := some ⟨60, [], []⟩,
        run_state := some ⟨0 + 1, insertKV [] "x" "v", none⟩ } :=
  ((step_completed_semantics exampleDecode
      { ReminderFlow.new with
        stage := .running,
        config := some ⟨60, [], []⟩,
        run_state := some ⟨0, [], some ⟨0, ⟨5⟩, some "x", true⟩⟩ }
      ⟨0, [], some ⟨0, ⟨5⟩, some "x", true⟩⟩
      ⟨0, ⟨5⟩, some "x", true⟩ (some "v") rfl rfl rfl).1
    "x" rfl).1 "v" rfl

theorem running_frame_spec (decode : String → Except String RawConfig)
    (f : ReminderFlow) (e : Event) (f' : ReminderFlow) (cmd : Command)
    (hstage : f.stage = .running ∨ ∃ t, f.stage = .waitingTimer t)
    (h : f.on_event decode e = (f', cmd)) :
    f'.env_values = f.env_values ∧
    f'.resolved_credentials = f.resolved_credentials ∧
    (∀ n t, cmd ≠ .doEff (.readEnvVar n t)) := by
  have hclose : ∀ (g g' : ReminderFlow) (c : Command),
      g.advance_run = (g', c) →
      g'.env_values = g.env_values ∧
      g'.resolved_credentials = g.resolved_credentials ∧
      (∀ n t, c ≠ .doEff (.readEnvVar n t)) := by
    intro g g' c hg
    obtain ⟨hdo, _, henv, hcred, _⟩ := advance_run_spec _ _ _ hg
    refine ⟨henv, hcred, fun n t hc => ?_⟩
    obtain ⟨_, _, hnr, _⟩ := hdo _ hc
    exact hnr n t rfl
  have hclose' : ∀ (g g' : ReminderFlow) (c : Command),
      g.start_run = (g', c) →
      g'.env_values = g.env_values ∧
      g'.resolved_credentials = g.resolved_credentials ∧
      (∀ n t, c ≠ .doEff (.readEnvVar n t)) := by
    intro g g' c hg
    obtain ⟨hdo, _, henv, hcred, _⟩ := start_run_spec _ _ _ hg
    refine ⟨henv, hcred, fun n t hc => ?_⟩
    obtain ⟨_, _, hnr, _⟩ := hdo _ hc
    exact hnr n t rfl
  rcases hstage with hs | ⟨t, hs⟩
  all_goals
    unfold ReminderFlow.on_event at h
    rw [hs] at h
    dsimp only at h
    repeat' split at h
  all_goals
    first
    | (simp only [finish_error_spec, Prod.mk.injEq] at h
       obtain ⟨h1, h2⟩ := h
       subst h1; subst h2
       exact ⟨rfl, rfl, by simp⟩)
    | (have hres := hclose _ _ _ h
       exact hres)
    | (have hres := hclose' _ _ _ h
       exact hres)

/-- Claim C9: every cycle begins with a fresh `RunState` whose per-run
variable scope is empty (an accepted `TimerFired` re-enters `Running` with
`step_index` 0, empty `variables` and no pending step, and proceeds through
`advance_run`), while in the `Running` and `WaitingTimer` stages no
transition ever modifies the captured environment values or resolved
credentials and no `ReadEnvVar` effect is ever emitted again: later cycles
resolve steps against exactly the env and credential scopes captured before
cycle 1. -/
theorem cycle_reset_and_env_frame :
    (∀ (decode : String → Except String RawConfig) (f : ReminderFlow)
      (t : EffId) (cfg : FlowConfig),
      f.stage = .waitingTimer t → f.config = some cfg →
      f.on_event decode (.timerFired t) =
        ReminderFlow.advance_run { f with
          run_state := some { step_index := 0, vars := [], pending := none },
          stage := .running }) ∧
    (∀ (decode : String → Except String RawConfig) (f : ReminderFlow)
      (e : Event) (f' : ReminderFlow) (cmd : Command),
      f.stage = .running ∨ (∃ t, f.stage = .waitingTimer t) →
      f.on_event decode e = (f', cmd) →
      f'.env_values = f.env_values ∧
      f'.resolved_credentials = f.resolved_credentials ∧
      (∀ n t, cmd ≠ .doEff (.readEnvVar n t))) := by
  constructor
  · intro decode f t cfg hs hcfg
    unfold ReminderFlow.on_event
    rw [hs]
    dsimp only
    rw [if_pos rfl]
    unfold ReminderFlow.start_run
    rw [hcfg]
  · intro decode f e f' cmd hstage h
    exact running_frame_spec decode f e f' cmd hstage h

/-- Witness for C9 at a concrete `WaitingTimer` state with a loaded
configuration. -/
theorem cycle_reset_and_env_frame_witness :
    (({ ReminderFlow.new with
        stage := .waitingTimer ⟨3⟩,
        config := some ⟨60, [], []⟩,
        env_values := [("E", "v")] } : ReminderFlow).on_event exampleDecode
        (.timerFired ⟨3⟩) =
      ReminderFlow.advance_run { ReminderFlow.new with
        stage := .running,
        config := some ⟨60, [], []⟩,
        env_values := [("E", "v")],
        run_state := some ⟨0, [], none⟩ }) ∧
    (({ ReminderFlow.new with
        stage := .running,
        env_values := [("E", "v")] } : ReminderFlow).on_event exampleDecode
        (.stepCompleted ⟨1⟩ none)).1.env_values = [("E", "v")] :=
  ⟨cycle_reset_and_env_frame.1 exampleDecode
      { ReminderFlow.new with
        stage := .waitingTimer ⟨3⟩,
        config := some ⟨60, [], []⟩,
        env_values := [("E", "v")] } ⟨3⟩ ⟨60, [], []⟩ rfl rfl,
   (cycle_reset_and_env_frame.2 exampleDecode
      { ReminderFlow.new with
        stage := .running,
        env_values := [("E", "v")] } (.stepCompleted ⟨1⟩ none)
      (({ ReminderFlow.new with
        stage := .running,
        env_values := [("E", "v")] } : ReminderFlow).on_event exampleDecode
        (.stepCompleted ⟨1⟩ none)).1
      (({ ReminderFlow.new with
        stage := .running,
        env_values := [("E", "v")] } : ReminderFlow).on_event exampleDecode
        (.stepCompleted ⟨1⟩ none)).2
      (Or.inl rfl) rfl).1⟩



/-! ## Template-rendering lemmas -/

theorem renderScan_verbatim (look : String → Option String) :
    ∀ s : List Char, hasOpen s = false →
      ReminderFlow.renderScan look s none = .ok s := by
  intro s
  induction s with
  | nil => intro _; rfl
  | cons a t IH =>
    intro h
    rw [ReminderFlow.renderScan.eq_def]
    split <;> simp_all [hasOpen]

theorem renderScan_unclosed (look : String → Option String) :
    ∀ s acc : List Char, hasClose s = false →
      ReminderFlow.renderScan look s (some acc) =
        .error (.invalidTemplate "unclosed placeholder in template") := by
  intro s
  induction s with
  | nil => intro _ _; rfl
  | cons a t IH =>
    intro acc h
    rw [ReminderFlow.renderScan.eq_def]
    split <;> simp_all [hasClose]

theorem renderScan_scan (look : String → Option String) :
    ∀ name : List Char, '}' ∉ name →
    ∀ acc rest : List Char,
      ReminderFlow.renderScan look (name ++ '}' :: '}' :: rest) (some acc) =
        ReminderFlow.renderScan look ('}' :: '}' :: rest)
          (some (acc ++ name)) := by
  intro name
  induction name with
  | nil => intro _ acc rest; simp
  | cons c cs IH =>
    intro hname acc rest
    have hc : c ≠ '}' := fun hh => hname (hh ▸ List.mem_cons_self c cs)
    have hcs : '}' ∉ cs := fun hm => hname (List.mem_cons_of_mem _ hm)
    rw [List.cons_append, ReminderFlow.renderScan.eq_def]
    split <;> simp_all
    rename_i heq1 heq2
    obtain ⟨hc1, hc2⟩ := heq1
    subst hc1
    subst hc2
    subst heq2
    rw [IH]
    simp [List.append_assoc]

theorem renderScan_close (look : String → Option String)
    (acc rest : List Char) :
    ReminderFlow.renderScan look ('}' :: '}' :: rest) (some acc) =
      (if trimChars acc = [] then
        .error (.invalidTemplate "empty placeholder in template")
      else
        match look (String.mk (trimChars acc)) with
        | some replacement =>
          (fun out => replacement.data ++ out) <$>
            ReminderFlow.renderScan look rest none
        | none => .error (.missingVariable (String.mk (trimChars acc)))) := rfl


/-- Claim C6: template rendering copies literal text verbatim; a placeholder
(two opening braces, name, two closing braces) is resolved on its
whitespace-trimmed name by consulting per-run variables first, then resolved
credentials, then environment values, first hit winning; a name found in no
scope yields `MissingVariable(name)`; a whitespace-only placeholder yields
`InvalidTemplate("empty placeholder in template")`; an unclosed opener
yields `InvalidTemplate("unclosed placeholder in template")`; and the
replacement text is spliced verbatim and never re-scanned — scanning
continues on the remainder only. -/
theorem template_rendering_spec (f : ReminderFlow)
    (vars : List (String × String)) (s name rest : List Char) (v : String) :
    (hasOpen s = false →
      f.render_template (String.mk s) vars = .ok (String.mk s)) ∧
    ('}' ∉ name → trimChars name ≠ [] →
      (lookupKV vars (String.mk (trimChars name)) = some v →
        f.render_template
            (String.mk ('{' :: '{' :: (name ++ '}' :: '}' :: rest))) vars =
          (ReminderFlow.renderScan (f.scopeLookup vars) rest none).map
            (fun out => String.mk (v.data ++ out))) ∧
      (lookupKV vars (String.mk (trimChars name)) = none →
       lookupKV f.resolved_credentials (String.mk (trimChars name)) = some v →
        f.render_template
            (String.mk ('{' :: '{' :: (name ++ '}' :: '}' :: rest))) vars =
          (ReminderFlow.renderScan (f.scopeLookup vars) rest none).map
            (fun out => String.mk (v.data ++ out))) ∧
      (lookupKV vars (String.mk (trimChars name)) = none →
       lookupKV f.resolved_credentials (String.mk (trimChars name)) = none →
       lookupKV f.env_values (String.mk (trimChars name)) = some v →
        f.render_template
            (String.mk ('{' :: '{' :: (name ++ '}' :: '}' :: rest))) vars =
          (ReminderFlow.renderScan (f.scopeLookup vars) rest none).map
            (fun out => String.mk (v.data ++ out))) ∧
      (lookupKV vars (String.mk (trimChars name)) = none →
       lookupKV f.resolved_credentials (String.mk (trimChars name)) = none →
       lookupKV f.env_values (String.mk (trimChars name)) = none →
        f.render_template
            (String.mk ('{' :: '{' :: (name ++ '}' :: '}' :: rest))) vars =
          .error (.missingVariable (String.mk (trimChars name))))) ∧
    ('}' ∉ name → trimChars name = [] →
      f.render_template
          (String.mk ('{' :: '{' :: (name ++ '}' :: '}' :: rest))) vars =
        .error (.invalidTemplate "empty placeholder in template")) ∧
    (hasClose s = false →
      f.render_template (String.mk ('{' :: '{' :: s)) vars =
        .error (.invalidTemplate "unclosed placeholder in template")) := by
  have hdata : ∀ l : List Char, (String.mk l).data = l := fun _ => rfl
  have hstep : ∀ (look : String → Option String) (l : List Char),
      ReminderFlow.renderScan look ('{' :: '{' :: l) none =
        ReminderFlow.renderScan look l (some []) := fun _ _ => rfl
  refine ⟨?_, ?_, ?_, ?_⟩
  · intro h
    unfold ReminderFlow.render_template
    rw [hdata, renderScan_verbatim _ _ h]
    rfl
  · intro hname hne
    have hcommon : ∀ look : String → Option String,
        ReminderFlow.renderScan look
            ('{' :: '{' :: (name ++ '}' :: '}' :: rest)) none =
          (if trimChars name = [] then
            .error (.invalidTemplate "empty placeholder in template")
          else
            match look (String.mk (trimChars name)) with
            | some replacement =>
              (fun out => replacement.data ++ out) <$>
                ReminderFlow.renderScan look rest none
            | none =>
              .error (.missingVariable (String.mk (trimChars name)))) := by
      intro look
      rw [hstep, renderScan_scan look name hname [] rest, List.nil_append,
        renderScan_close]
    refine ⟨?_, ?_, ?_, ?_⟩
    · intro h1
      unfold ReminderFlow.render_template
      rw [hdata, hcommon, if_neg hne]
      have hlook : f.scopeLookup vars (String.mk (trimChars name)) = some v := by
        simp [ReminderFlow.scopeLookup, h1]
      rw [hlook]
      cases ReminderFlow.renderScan (f.scopeLookup vars) rest none <;> rfl
    · intro h1 h2
      unfold ReminderFlow.render_template
      rw [hdata, hcommon, if_neg hne]
      have hlook : f.scopeLookup vars (String.mk (trimChars name)) = some v := by
        simp [ReminderFlow.scopeLookup, h1, h2]
      rw [hlook]
      cases ReminderFlow.renderScan (f.scopeLookup vars) rest none <;> rfl
    · intro h1 h2 h3
      unfold ReminderFlow.render_template
      rw [hdata, hcommon, if_neg hne]
      have hlook : f.scopeLookup vars (String.mk (trimChars name)) = some v := by
        simp [ReminderFlow.scopeLookup, h1, h2, h3]
      rw [hlook]
      cases ReminderFlow.renderScan (f.scopeLookup vars) rest none <;> rfl
    · intro h1 h2 h3
      unfold ReminderFlow.render_template
      rw [hdata, hcommon, if_neg hne]
      have hlook : f.scopeLookup vars (String.mk (trimChars name)) = none := by
        simp [ReminderFlow.scopeLookup, h1, h2, h3]
      rw [hlook]
      rfl
  · intro hname hempty
    unfold ReminderFlow.render_template
    rw [hdata, hstep, renderScan_scan _ name hname [] rest, List.nil_append,
      renderScan_close, if_pos hempty]
    rfl
  · intro h
    unfold ReminderFlow.render_template
    rw [hdata, hstep, renderScan_unclosed _ _ _ h]
    rfl

/-- Witness for C6: a variable placeholder resolves from the first scope,
with and without surrounding whitespace in the placeholder — including
Unicode whitespace (a vertical tab) — and a placeholder containing only a
vertical tab is the empty-placeholder error. -/
theorem template_rendering_spec_witness :
    ReminderFlow.new.render_template
      (String.mk ('{' :: '{' :: (['x'] ++ '}' :: '}' :: []))) [("x", "y")]
      = .ok "y" ∧
    ReminderFlow.new.render_template
      (String.mk ('{' :: '{' ::
        ([Char.ofNat 11, 'x', ' '] ++ '}' :: '}' :: [])))
      [("x", "y")] = .ok "y" ∧
    ReminderFlow.new.render_template
      (String.mk ('{' :: '{' :: ([Char.ofNat 11] ++ '}' :: '}' :: []))) []
      = .error (.invalidTemplate "empty placeholder in template") :=
  ⟨(((template_rendering_spec ReminderFlow.new [("x", "y")] [] ['x'] []
      "y").2.1 (by decide) (by decide)).1 (by decide)).trans (by decide),
   (((template_rendering_spec ReminderFlow.new [("x", "y")] []
      [Char.ofNat 11, 'x', ' '] [] "y").2.1 (by decide) (by decide)).1
      (by decide)).trans (by decide),
   (template_rendering_spec ReminderFlow.new [] [] [Char.ofNat 11] []
      "y").2.2.1 (by decide) (by decide)⟩

/-! ## Duration-parser lemmas -/

theorem dropWhile_of_forall_false (p : Char → Bool) (l : List Char)
    (h : ∀ c ∈ l, p c = false) : l.dropWhile p = l := by
  cases l with
  | nil => rfl
  | cons c cs => simp [List.dropWhile_cons, h c (List.mem_cons_self c cs)]

theorem trimChars_of_forall_not_ws (l : List Char)
    (h : ∀ c ∈ l, isWsC c = false) : trimChars l = l := by
  unfold trimChars
  rw [dropWhile_of_forall_false _ _ h,
    dropWhile_of_forall_false _ _ (fun c hc => h c (List.mem_reverse.mp hc)),
    List.reverse_reverse]

theorem isDigitC_not_ws {c : Char} (h : isDigitC c = true) :
    isWsC c = false := by
  simp [isDigitC] at h
  simp [isWsC]
  omega

theorem splitNum_digits : ∀ ds : List Char,
    (∀ c ∈ ds, isDigitC c = true) →
    ∀ l acc : List Char, splitNum (ds ++ l) acc [] = splitNum l (acc ++ ds) [] := by
  intro ds
  induction ds with
  | nil => intro _ l acc; simp
  | cons c cs IH =>
    intro h l acc
    have hc := h c (List.mem_cons_self c cs)
    rw [List.cons_append]
    simp only [splitNum, hc, if_true, ne_eq, not_true_eq_false, if_false,
      ite_true, reduceIte]
    rw [IH (fun c' hc' => h c' (List.mem_cons_of_mem _ hc')) l (acc ++ [c])]
    simp [List.append_assoc]

theorem splitNum_nondigits : ∀ us : List Char,
    (∀ c ∈ us, isDigitC c = false) →
    ∀ ds acc : List Char, splitNum us ds acc = some (ds, acc ++ us) := by
  intro us
  induction us with
  | nil => intro _ ds acc; simp [splitNum]
  | cons c cs IH =>
    intro h ds acc
    have hc := h c (List.mem_cons_self c cs)
    simp only [splitNum, hc, Bool.false_eq_true, if_false, reduceIte]
    rw [IH (fun c' hc' => h c' (List.mem_cons_of_mem _ hc')) ds (acc ++ [c])]
    simp [List.append_assoc]

theorem digitsVal_append (l : List Char) (c : Char) :
    digitsValChars (l ++ [c]) = digitsValChars l * 10 + (c.toNat - 48) := by
  simp [digitsValChars, List.foldl_append]

theorem digitChar_toNat {k : Nat} (h : k < 10) :
    (Char.ofNat (48 + k)).toNat = 48 + k := by
  interval_cases k <;> decide

theorem digitChar_isDigit {k : Nat} (h : k < 10) :
    isDigitC (Char.ofNat (48 + k)) = true := by
  interval_cases k <;> decide

theorem natDigitsAux_spec : ∀ fuel n : Nat, n < fuel →
    natDigitsAux fuel n ≠ [] ∧
    (∀ c ∈ natDigitsAux fuel n, isDigitC c = true) ∧
    digitsValChars (natDigitsAux fuel n) = n := by
  intro fuel
  induction fuel with
  | zero => intro n h; omega
  | succ fu IH =>
    intro n h
    by_cases h10 : n < 10
    · simp only [natDigitsAux]
      rw [if_pos h10]
      refine ⟨by simp, ?_, ?_⟩
      · intro c hc
        simp only [List.mem_singleton] at hc
        subst hc
        exact digitChar_isDigit h10
      · simp [digitsValChars, digitChar_toNat h10]
    · have hdiv : n / 10 < fu := by omega
      obtain ⟨hne, hdig, hval⟩ := IH (n / 10) hdiv
      have hmod : n % 10 < 10 := Nat.mod_lt _ (by norm_num)
      simp only [natDigitsAux]
      rw [if_neg h10]
      refine ⟨by simp, ?_, ?_⟩
      · intro c hc
        rcases List.mem_append.mp hc with hc1 | hc2
        · exact hdig c hc1
        · simp only [List.mem_singleton] at hc2
          subst hc2
          exact digitChar_isDigit hmod
      · rw [digitsVal_append, hval, digitChar_toNat hmod]
        omega

theorem parse_duration_digits_unit (ds unit : List Char)
    (h1 : ds ≠ []) (h2 : ∀ c ∈ ds, isDigitC c = true)
    (hu : ∀ c ∈ unit, isDigitC c = false ∧ isWsC c = false)
    (hval : digitsValChars ds < 2 ^ 64) :
    parse_duration (String.mk (ds ++ unit)) =
      unitSecs (digitsValChars ds) unit := by
  have hws : ∀ c ∈ ds ++ unit, isWsC c = false := by
    intro c hc
    rcases List.mem_append.mp hc with hc1 | hc2
    · exact isDigitC_not_ws (h2 c hc1)
    · exact (hu c hc2).2
  have htrim : trimChars (String.mk (ds ++ unit)).data = ds ++ unit :=
    trimChars_of_forall_not_ws _ hws
  have hne : ds ++ unit ≠ [] := by
    cases ds
    · exact absurd rfl h1
    · simp
  have hsplit : splitNum (ds ++ unit) [] [] = some (ds, unit) := by
    rw [splitNum_digits ds h2 unit []]
    rw [splitNum_nondigits unit (fun c hc => (hu c hc).1) ([] ++ ds) []]
    simp
  have hp64 : parseU64 ds = some (digitsValChars ds) := by
    unfold parseU64
    rw [if_neg h1, if_pos (show ds.all isDigitC = true from
      List.all_eq_true.mpr h2), if_pos hval]
  simp [parse_duration, parseTrimmedDuration, htrim, hsplit, hp64, hne]

/-- Claim C5: the duration parser trims surrounding whitespace, splits the
input into a leading digit run and a trailing unit, rejects empty input and
any digit occurring after a non-digit character, maps the absent unit to
seconds and the units s, m, h, d to multipliers 1, 60, 3600, 86400, and
rejects any other unit; in particular "0s" parses to 0 seconds, "10" to 10
seconds, "", "10x" and "1 0m" are rejected, and surrounding whitespace —
including Unicode whitespace such as a vertical tab — is trimmed before
parsing. -/
theorem parse_duration_spec (ds : List Char) (u : Char)
    (h1 : ds ≠ []) (h2 : ∀ c ∈ ds, isDigitC c = true)
    (h3 : digitsValChars ds * 86400 < 2 ^ 64) :
    parse_duration (String.mk ds) = some (digitsValChars ds) ∧
    parse_duration (String.mk (ds ++ ['s'])) = some (digitsValChars ds) ∧
    parse_duration (String.mk (ds ++ ['m'])) = some (digitsValChars ds * 60) ∧
    parse_duration (String.mk (ds ++ ['h'])) =
      some (digitsValChars ds * 3600) ∧
    parse_duration (String.mk (ds ++ ['d'])) =
      some (digitsValChars ds * 86400) ∧
    (isDigitC u = false → isWsC u = false →
      u ≠ 's' → u ≠ 'm' → u ≠ 'h' → u ≠ 'd' →
      parse_duration (String.mk (ds ++ [u])) = none) ∧
    (parse_duration "" = none ∧ parse_duration "0s" = some 0 ∧
      parse_duration "10" = some 10 ∧ parse_duration "10x" = none ∧
      parse_duration "1 0m" = none ∧ parse_duration " 10m " = some 600 ∧
      parse_duration (String.mk ['1', '0', Char.ofNat 11]) = some 10 ∧
      parse_duration (String.mk [Char.ofNat 160, '5', 'm', Char.ofNat 12]) =
        some 300) := by
  have hval : digitsValChars ds < 2 ^ 64 := by
    have : digitsValChars ds ≤ digitsValChars ds * 86400 :=
      Nat.le_mul_of_pos_right _ (by norm_num)
    omega
  have hmul : ∀ m : Nat, m ≤ 86400 → digitsValChars ds * m < 2 ^ 64 := by
    intro m hm
    have : digitsValChars ds * m ≤ digitsValChars ds * 86400 :=
      Nat.mul_le_mul_left _ hm
    omega
  refine ⟨?_, ?_, ?_, ?_, ?_, ?_, by decide, by decide, by decide, by decide,
    by decide, by decide, by decide, by decide⟩
  · have := parse_duration_digits_unit ds [] h1 h2 (by simp) hval
    simpa [unitSecs] using this
  · have := parse_duration_digits_unit ds ['s'] h1 h2
      (by intro c hc; simp only [List.mem_singleton] at hc; subst hc
          exact ⟨by decide, by decide⟩) hval
    simpa [unitSecs] using this
  · have := parse_duration_digits_unit ds ['m'] h1 h2
      (by intro c hc; simp only [List.mem_singleton] at hc; subst hc
          exact ⟨by decide, by decide⟩) hval
    rw [this]
    simp only [unitSecs, reduceIte]
    rw [Nat.mod_eq_of_lt (hmul 60 (by norm_num))]
    simp
  · have := parse_duration_digits_unit ds ['h'] h1 h2
      (by intro c hc; simp only [List.mem_singleton] at hc; subst hc
          exact ⟨by decide, by decide⟩) hval
    rw [this]
    simp only [unitSecs, reduceIte]
    rw [Nat.mod_eq_of_lt (hmul 3600 (by norm_num))]
    simp
  · have := parse_duration_digits_unit ds ['d'] h1 h2
      (by intro c hc; simp only [List.mem_singleton] at hc; subst hc
          exact ⟨by decide, by decide⟩) hval
    rw [this]
    simp only [unitSecs, reduceIte]
    rw [Nat.mod_eq_of_lt (hmul 86400 (by norm_num))]
    simp
  · intro hud hws hus hum huh hudd
    have := parse_duration_digits_unit ds [u] h1 h2
      (by intro c hc; simp only [List.mem_singleton] at hc; subst hc
          exact ⟨hud, hws⟩) hval
    rw [this]
    simp [unitSecs, hus, hum, huh, hudd]

/-- Witness for C5 at the digit run "7" and the rejected unit x. -/
theorem parse_duration_spec_witness :
    parse_duration (String.mk ['7']) = some (digitsValChars ['7']) ∧
    parse_duration (String.mk (['7'] ++ ['m'])) =
      some (digitsValChars ['7'] * 60) ∧
    parse_duration (String.mk (['7'] ++ ['x'])) = none :=
  ⟨(parse_duration_spec ['7'] 'x' (by decide) (by decide) (by decide)).1,
   (parse_duration_spec ['7'] 'x' (by decide) (by decide) (by decide)).2.2.1,
   (parse_duration_spec ['7'] 'x' (by decide) (by decide)
      (by decide)).2.2.2.2.2.1 (by decide) (by decide) (by decide) (by decide)
      (by decide) (by decide)⟩

/-! ## Ordering lemmas for the BTreeSet model -/

theorem ltChars_irrefl : ∀ l : List Char, ltChars l l = false := by
  intro l
  induction l with
  | nil => rfl
  | cons a as IH => simp [ltChars, IH]

theorem charToNat_inj {a b : Char} (h : a.toNat = b.toNat) : a = b := by
  have ha := Char.ofNat_toNat a
  have hb := Char.ofNat_toNat b
  rw [← ha, ← hb, h]

theorem ltChars_total : ∀ l m : List Char, l ≠ m →
    ltChars l m = true ∨ ltChars m l = true := by
  intro l
  induction l with
  | nil =>
    intro m hm
    cases m with
    | nil => exact absurd rfl hm
    | cons b bs => exact Or.inl rfl
  | cons a as IH =>
    intro m hm
    cases m with
    | nil => exact Or.inr rfl
    | cons b bs =>
      rcases Nat.lt_trichotomy a.toNat b.toNat with hlt | heq | hgt
      · exact Or.inl (by simp [ltChars, hlt])
      · have hab : a = b := charToNat_inj heq
        subst hab
        have hne : as ≠ bs := fun hh => hm (by rw [hh])
        rcases IH bs hne with h1 | h2
        · exact Or.inl (by simp [ltChars, h1])
        · exact Or.inr (by simp [ltChars, h2])
      · exact Or.inr (by simp [ltChars, hgt])

theorem ltChars_trans : ∀ a b c : List Char,
    ltChars a b = true → ltChars b c = true → ltChars a c = true := by
  intro a
  induction a with
  | nil =>
    intro b c h1 h2
    cases c with
    | nil => cases b <;> simp [ltChars] at h1 h2
    | cons _ _ => rfl
  | cons a as IH =>
    intro b c h1 h2
    cases b with
    | nil => simp [ltChars] at h1
    | cons b bs =>
      cases c with
      | nil => simp [ltChars] at h2
      | cons c cs =>
        by_cases hab : a.toNat < b.toNat
        · by_cases hbc : b.toNat < c.toNat
          · have hac : a.toNat < c.toNat := by omega
            simp [ltChars, hac]
          · by_cases hcb : c.toNat < b.toNat
            · simp [ltChars, hbc, hcb] at h2
            · have hac : a.toNat < c.toNat := by omega
              simp [ltChars, hac]
        · by_cases hba : b.toNat < a.toNat
          · simp [ltChars, hab, hba] at h1
          · by_cases hbc : b.toNat < c.toNat
            · have hac : a.toNat < c.toNat := by omega
              simp [ltChars, hac]
            · by_cases hcb : c.toNat < b.toNat
              · simp [ltChars, hbc, hcb] at h2
              · have h1x : ltChars as bs = true := by
                  simpa [ltChars, hab, hba] using h1
                have h2x : ltChars bs cs = true := by
                  simpa [ltChars, hbc, hcb] using h2
                have hrec := IH bs cs h1x h2x
                have hnac : ¬ a.toNat < c.toNat := by omega
                have hnca : ¬ c.toNat < a.toNat := by omega
                simp [ltChars, hnac, hnca, hrec]

theorem ltStr_trans {a b c : String} (h1 : ltStr a b = true)
    (h2 : ltStr b c = true) : ltStr a c = true :=
  ltChars_trans a.data b.data c.data h1 h2

theorem ltStr_irrefl (a : String) : ltStr a a = false :=
  ltChars_irrefl a.data

theorem ltStr_total {a b : String} (h : a ≠ b) :
    ltStr a b = true ∨ ltStr b a = true :=
  ltChars_total a.data b.data (fun hd => h (by cases a; cases b; cases hd; rfl))

theorem mem_btreeInsert (x k : String) : ∀ l : List String,
    (x ∈ btreeInsert k l ↔ x = k ∨ x ∈ l) := by
  intro l
  induction l with
  | nil => simp [btreeInsert]
  | cons k' rest IH =>
    by_cases h1 : k = k'
    · subst h1
      simp [btreeInsert]
    · by_cases h2 : ltStr k k' = true
      · simp [btreeInsert, h1, h2]
      · simp [btreeInsert, h1, h2, IH]
        tauto

theorem sorted_btreeInsert (k : String) : ∀ l : List String,
    l.Pairwise (fun a b => ltStr a b = true) →
    (btreeInsert k l).Pairwise (fun a b => ltStr a b = true) := by
  intro l
  induction l with
  | nil => intro _; simp [btreeInsert]
  | cons k' rest IH =>
    intro hp
    rw [List.pairwise_cons] at hp
    obtain ⟨hhead, htail⟩ := hp
    by_cases h1 : k = k'
    · subst h1
      simp only [btreeInsert, if_pos rfl]
      exact List.pairwise_cons.mpr ⟨hhead, htail⟩
    · by_cases h2 : ltStr k k' = true
      · simp only [btreeInsert, if_neg h1, if_pos h2]
        refine List.pairwise_cons.mpr ⟨?_, List.pairwise_cons.mpr ⟨hhead, htail⟩⟩
        intro x hx
        rcases List.mem_cons.mp hx with hx1 | hx2
        · subst hx1; exact h2
        · exact ltStr_trans h2 (hhead x hx2)
      · have h3 : ltStr k' k = true := by
          rcases ltStr_total h1 with hh | hh
          · exact absurd hh h2
          · exact hh
        simp only [btreeInsert, if_neg h1, if_neg h2]
        refine List.pairwise_cons.mpr ⟨?_, IH htail⟩
        intro x hx
        rcases (mem_btreeInsert x k rest).mp hx with hx1 | hx2
        · subst hx1; exact h3
        · exact hhead x hx2

theorem sorted_collect_env (v : ValueRef) (s : List String)
    (h : s.Pairwise (fun a b => ltStr a b = true)) :
    (v.collect_env s).Pairwise (fun a b => ltStr a b = true) := by
  cases v with
  | env n => exact sorted_btreeInsert _ _ h
  | literal t => exact h
  | credential c => exact h
  | var w => exact h

theorem mem_collect_env (x : String) (v : ValueRef) (s : List String) :
    x ∈ v.collect_env s ↔ x ∈ v.envName ∨ x ∈ s := by
  cases v with
  | env n => simp [ValueRef.collect_env, ValueRef.envName, mem_btreeInsert]
  | literal t => simp [ValueRef.collect_env, ValueRef.envName]
  | credential c => simp [ValueRef.collect_env, ValueRef.envName]
  | var w => simp [ValueRef.collect_env, ValueRef.envName]

theorem sorted_step_collect (st : Step) (s : List String)
    (h : s.Pairwise (fun a b => ltStr a b = true)) :
    (st.collect_env s).Pairwise (fun a b => ltStr a b = true) := by
  cases st with
  | googleSheet g =>
    cases hw : g.worksheet with
    | none =>
      simp only [Step.collect_env, hw]
      exact sorted_collect_env _ _ h
    | some w =>
      simp only [Step.collect_env, hw]
      exact sorted_collect_env _ _ (sorted_collect_env _ _ h)
  | email e => exact sorted_collect_env _ _ (sorted_collect_env _ _ h)
  | telegram t => exact sorted_collect_env _ _ (sorted_collect_env _ _ h)

theorem mem_step_collect (x : String) (st : Step) (s : List String) :
    x ∈ st.collect_env s ↔ x ∈ st.envNames ∨ x ∈ s := by
  cases st with
  | googleSheet g =>
    cases hw : g.worksheet with
    | none =>
      simp [Step.collect_env, Step.envNames, hw, mem_collect_env]
    | some w =>
      simp [Step.collect_env, Step.envNames, hw, mem_collect_env]
      tauto
  | email e =>
    simp [Step.collect_env, Step.envNames, mem_collect_env]
    tauto
  | telegram t =>
    simp [Step.collect_env, Step.envNames, mem_collect_env]
    tauto

theorem sorted_credFold :
    ∀ (creds : List (String × CredentialSource)) (s : List String),
    s.Pairwise (fun a b => ltStr a b = true) →
    (creds.foldl
      (fun set p =>
        match p.2 with
        | CredentialSource.envVar name => btreeInsert name set
        | _ => set) s).Pairwise (fun a b => ltStr a b = true) := by
  intro creds
  induction creds with
  | nil => intro s h; exact h
  | cons p rest IH =>
    intro s h
    rw [List.foldl_cons]
    apply IH
    cases hp : p.2 with
    | envVar n => simp only [hp]; exact sorted_btreeInsert _ _ h
    | value v => simp only [hp]; exact h

theorem mem_credFold (x : String) :
    ∀ (creds : List (String × CredentialSource)) (s : List String),
    (x ∈ creds.foldl
      (fun set p =>
        match p.2 with
        | CredentialSource.envVar name => btreeInsert name set
        | _ => set) s ↔
      x ∈ creds.filterMap
        (fun p =>
          match p.2 with
          | CredentialSource.envVar n => some n
          | _ => none) ∨ x ∈ s) := by
  intro creds
  induction creds with
  | nil => intro s; simp
  | cons p rest IH =>
    intro s
    rw [List.foldl_cons, List.filterMap_cons]
    cases hp : p.2 with
    | envVar n =>
      simp only [hp, IH, mem_btreeInsert, List.mem_cons]
      tauto
    | value v =>
      simp only [hp, IH]

theorem sorted_stepsFold :
    ∀ (steps : List Step) (s : List String),
    s.Pairwise (fun a b => ltStr a b = true) →
    (steps.foldl (fun set step => step.collect_env set) s).Pairwise
      (fun a b => ltStr a b = true) := by
  intro steps
  induction steps with
  | nil => intro s h; exact h
  | cons st rest IH =>
    intro s h
    rw [List.foldl_cons]
    exact IH _ (sorted_step_collect st s h)

theorem mem_stepsFold (x : String) :
    ∀ (steps : List Step) (s : List String),
    (x ∈ steps.foldl (fun set step => step.collect_env set) s ↔
      x ∈ (steps.map Step.envNames).flatten ∨ x ∈ s) := by
  intro steps
  induction steps with
  | nil => intro s; simp
  | cons st rest IH =>
    intro s
    rw [List.foldl_cons, List.map_cons, List.flatten_cons]
    rw [IH, mem_step_collect, List.mem_append]
    tauto

theorem env_requests_sorted (cfg : FlowConfig) :
    cfg.env_requests.Pairwise (fun a b => ltStr a b = true) :=
  sorted_stepsFold _ _ (sorted_credFold _ _ List.Pairwise.nil)

theorem env_requests_nodup (cfg : FlowConfig) : cfg.env_requests.Nodup :=
  (env_requests_sorted cfg).imp
    (fun h hab => by
      subst hab
      rw [ltStr_irrefl] at h
      exact Bool.noConfusion h)

theorem mem_env_requests (cfg : FlowConfig) (x : String) :
    x ∈ cfg.env_requests ↔ x ∈ cfg.envRefNames := by
  unfold FlowConfig.env_requests FlowConfig.envRefNames
  rw [mem_stepsFold, mem_credFold, List.mem_append]
  simp only [List.not_mem_nil, or_false]
  tauto

theorem envPhaseTrace_stop (decode : String → Except String RawConfig)
    (values : String → String) (fuel : Nat) (f : ReminderFlow) (cmd : Command)
    (h : ∀ n t, cmd ≠ .doEff (.readEnvVar n t)) :
    envPhaseTrace decode values fuel f cmd = [] := by
  cases fuel with
  | zero => rfl
  | succ fu =>
    cases cmd with
    | wait => rfl
    | done r => rfl
    | doEff eff =>
      cases eff with
      | readEnvVar n t => exact absurd rfl (h n t)
      | loadConfig d t => rfl
      | fetchGoogleSheetCell r => rfl
      | searchEmails r => rfl
      | sendTelegramMessage r => rfl
      | startTimer d t => rfl

theorem fetch_no_env_when_empty (f f' : ReminderFlow) (cmd : Command)
    (hpend : f.pending_env = []) (hcur : f.current_env = none)
    (h : f.fetch_next_env_or_start_run = (f', cmd)) :
    ∀ n t, cmd ≠ .doEff (.readEnvVar n t) := by
  unfold ReminderFlow.fetch_next_env_or_start_run at h
  rw [hcur, hpend] at h
  simp only [Option.isSome_none, Bool.false_eq_true, if_false, reduceIte] at h
  split at h
  · intro n t hc
    obtain ⟨hdo, _, _, _, _⟩ := start_run_spec _ _ _ h
    obtain ⟨_, _, hnr, _⟩ := hdo _ hc
    exact hnr n t rfl
  · rw [finish_error_spec] at h
    simp only [Prod.mk.injEq] at h
    obtain ⟨_, h2⟩ := h
    subst h2
    simp

theorem envPhaseTrace_loop (decode : String → Except String RawConfig)
    (values : String → String) :
    ∀ (l : List String) (fuel : Nat) (f : ReminderFlow) (n : String)
      (t : EffId),
    f.stage = .loadingEnv → f.current_env = some (n, t) →
    f.pending_env = l → l.length < fuel →
    envPhaseTrace decode values fuel f (.doEff (.readEnvVar n t)) =
      n :: l := by
  intro l
  induction l with
  | nil =>
    intro fuel f n t hs hc hp hfuel
    cases fuel with
    | zero => omega
    | succ fu =>
      have hone : f.on_event decode (.envVarLoaded t n (some (values n))) =
          ReminderFlow.fetch_next_env_or_start_run
            ⟨f.stage, f.next_tag, f.config,
              insertKV f.env_values n (values n), f.resolved_credentials,
              f.pending_env, none, f.run_state⟩ := by
        simp [ReminderFlow.on_event, hs, hc]
      show n :: envPhaseTrace decode values fu
          (f.on_event decode (.envVarLoaded t n (some (values n)))).1
          (f.on_event decode (.envVarLoaded t n (some (values n)))).2
        = n :: []
      rw [hone]
      congr 1
      exact envPhaseTrace_stop _ _ _ _ _
        (fetch_no_env_when_empty
          ⟨f.stage, f.next_tag, f.config, insertKV f.env_values n (values n),
            f.resolved_credentials, f.pending_env, none, f.run_state⟩
          _ _ hp rfl rfl)
  | cons hd tl IH =>
    intro fuel f n t hs hc hp hfuel
    cases fuel with
    | zero => omega
    | succ fu =>
      have hone : f.on_event decode (.envVarLoaded t n (some (values n))) =
          (⟨f.stage, f.next_tag + 1, f.config,
              insertKV f.env_values n (values n), f.resolved_credentials,
              tl, some (hd, ⟨f.next_tag⟩), f.run_state⟩,
            .doEff (.readEnvVar hd ⟨f.next_tag⟩)) := by
        simp [ReminderFlow.on_event, hs, hc,
          ReminderFlow.fetch_next_env_or_start_run, hp,
          ReminderFlow.allocTag]
      show n :: envPhaseTrace decode values fu
          (f.on_event decode (.envVarLoaded t n (some (values n)))).1
          (f.on_event decode (.envVarLoaded t n (some (values n)))).2
        = n :: hd :: tl
      rw [hone]
      congr 1
      refine IH fu _ hd ⟨f.next_tag⟩ hs rfl rfl ?_
      simp only [List.length_cons] at hfuel
      omega

/-- Claim C4: for every parsed configuration, the set of required environment
variables (`env_requests`) holds exactly the `Env(name)` references occurring
in credential sources and in the `ValueRef` fields of the steps, with
duplicates removed, in strictly ascending lexicographic name order; and after
a `ConfigLoaded` event is accepted the engine issues exactly one `ReadEnvVar`
effect per required name, one at a time (each next request only after the
previous reply), in exactly that order, independent of the recipe's
authoring order. -/
theorem env_requests_ordering :
    (∀ cfg : FlowConfig,
      cfg.env_requests.Pairwise (fun a b => ltStr a b = true)) ∧
    (∀ cfg : FlowConfig, cfg.env_requests.Nodup) ∧
    (∀ (cfg : FlowConfig) (x : String),
      x ∈ cfg.env_requests ↔ x ∈ cfg.envRefNames) ∧
    (∀ (decode : String → Except String RawConfig)
      (values : String → String) (f : ReminderFlow) (tag : EffId)
      (path contents : String) (raw : RawConfig) (cfg : FlowConfig)
      (fuel : Nat),
      f.stage = .waitingConfig tag →
      decode contents = .ok raw →
      FlowConfig.fromRaw raw = .ok cfg →
      cfg.env_requests.length < fuel →
      envPhaseTrace decode values fuel
        (f.on_event decode (.configLoaded tag path contents)).1
        (f.on_event decode (.configLoaded tag path contents)).2 =
      cfg.env_requests) := by
  refine ⟨env_requests_sorted, env_requests_nodup, mem_env_requests, ?_⟩
  intro decode values f tag path contents raw cfg fuel hs hdec hraw hfuel
  have hone : f.on_event decode (.configLoaded tag path contents) =
      ReminderFlow.fetch_next_env_or_start_run
        ⟨.loadingEnv, f.next_tag, some cfg, [], [], cfg.env_requests, none,
          f.run_state⟩ := by
    simp [ReminderFlow.on_event, hs, FlowConfig.from_yaml, hdec, hraw,
      ReminderFlow.prepare_env_requests]
  rw [hone]
  generalize hL : cfg.env_requests = L at hfuel ⊢
  cases L with
  | nil =>
    exact envPhaseTrace_stop _ _ _ _ _
      (fetch_no_env_when_empty
        ⟨.loadingEnv, f.next_tag, some cfg, [], [], [], none, f.run_state⟩
        _ _ rfl rfl rfl)
  | cons hd tl =>
    have hfetch : ReminderFlow.fetch_next_env_or_start_run
        ⟨.loadingEnv, f.next_tag, some cfg, [], [], hd :: tl, none,
          f.run_state⟩ =
        (⟨.loadingEnv, f.next_tag + 1, some cfg, [], [], tl,
            some (hd, ⟨f.next_tag⟩), f.run_state⟩,
          .doEff (.readEnvVar hd ⟨f.next_tag⟩)) := by
      simp [ReminderFlow.fetch_next_env_or_start_run, ReminderFlow.allocTag]
    rw [hfetch]
    refine envPhaseTrace_loop decode values tl fuel _ hd ⟨f.next_tag⟩ rfl rfl
      rfl ?_
    simp only [List.length_cons] at hfuel
    omega

/-- Witness for C4: a two-variable recipe (names authored out of order)
yields requests A then B. -/
theorem env_requests_ordering_witness :
    envPhaseTrace
      (fun _ => Except.ok
        (⟨"1s", [("c", ⟨none, some "B", none, none⟩)],
          [RawStep.telegram (ValueRef.env "A") (ValueRef.literal "x") none]⟩ :
          RawConfig))
      (fun _ => "v") 3
      ((ReminderFlow.new.start).1.on_event
        (fun _ => Except.ok
          (⟨"1s", [("c", ⟨none, some "B", none, none⟩)],
            [RawStep.telegram (ValueRef.env "A") (ValueRef.literal "x")
              none]⟩ : RawConfig))
        (.configLoaded ⟨1⟩ "p" "c")).1
      ((ReminderFlow.new.start).1.on_event
        (fun _ => Except.ok
          (⟨"1s", [("c", ⟨none, some "B", none, none⟩)],
            [RawStep.telegram (ValueRef.env "A") (ValueRef.literal "x")
              none]⟩ : RawConfig))
        (.configLoaded ⟨1⟩ "p" "c")).2 =
    (⟨1, [("c", CredentialSource.envVar "B")],
      [Step.telegram ⟨ValueRef.env "A", ValueRef.literal "x", none⟩]⟩ :
      FlowConfig).env_requests :=
  env_requests_ordering.2.2.2
    (fun _ => Except.ok
      (⟨"1s", [("c", ⟨none, some "B", none, none⟩)],
        [RawStep.telegram (ValueRef.env "A") (ValueRef.literal "x") none]⟩ :
        RawConfig))
    (fun _ => "v") (ReminderFlow.new.start).1 ⟨1⟩ "p" "c"
    ⟨"1s", [("c", ⟨none, some "B", none, none⟩)],
      [RawStep.telegram (ValueRef.env "A") (ValueRef.literal "x") none]⟩
    ⟨1, [("c", CredentialSource.envVar "B")],
      [Step.telegram ⟨ValueRef.env "A", ValueRef.literal "x", none⟩]⟩
    3 (by decide) rfl (by decide) (by decide)

/-! ## Round-trip lemmas -/

theorem parseU64_lt {ds : List Char} {v : Nat} (h : parseU64 ds = some v) :
    v < 2 ^ 64 := by
  unfold parseU64 at h
  repeat' split at h
  all_goals first
    | exact Option.noConfusion h
    | (injection h with h'; subst h'; assumption)

theorem unitSecs_lt {v r : Nat} {unit : List Char} (hv : v < 2 ^ 64)
    (h : unitSecs v unit = some r) : r < 2 ^ 64 := by
  unfold unitSecs at h
  repeat' split at h
  all_goals first
    | exact Option.noConfusion h
    | (injection h with h'; subst h';
       first
       | exact hv
       | exact Nat.mod_lt _ (by norm_num))

theorem parse_duration_lt {s : String} {v : Nat}
    (h : parse_duration s = some v) : v < 2 ^ 64 := by
  unfold parse_duration parseTrimmedDuration at h
  split at h
  · exact Option.noConfusion h
  · split at h
    · exact Option.noConfusion h
    · split at h
      · exact Option.noConfusion h
      · rename_i hp64
        exact unitSecs_lt (parseU64_lt hp64) h

theorem durationToStr_roundtrip {n : Nat} (h : n < 2 ^ 64) :
    parse_duration (durationToStr n) = some n := by
  obtain ⟨hne, hdig, hval⟩ := natDigitsAux_spec (n + 1) n (Nat.lt_succ_self n)
  have hstep := parse_duration_digits_unit (natDigits n) ['s']
    (by simpa [natDigits] using hne) (by simpa [natDigits] using hdig)
    (by intro c hc; simp only [List.mem_singleton] at hc; subst hc
        exact ⟨by decide, by decide⟩)
    (by simpa [natDigits, hval] using h)
  rw [durationToStr, hstep]
  simp [unitSecs, natDigits, hval]

theorem mem_btreeInsertKV {α : Type} (k : String) (v : α) :
    ∀ (l : List (String × α)) (p : String × α),
    p ∈ btreeInsertKV k v l → p = (k, v) ∨ p ∈ l := by
  intro l
  induction l with
  | nil => intro p hp; simp [btreeInsertKV] at hp; exact Or.inl hp
  | cons q rest IH =>
    intro p hp
    obtain ⟨k', v'⟩ := q
    by_cases h1 : k = k'
    · subst h1
      simp only [btreeInsertKV, if_pos rfl] at hp
      rcases List.mem_cons.mp hp with hp1 | hp2
      · exact Or.inl hp1
      · exact Or.inr (List.mem_cons_of_mem _ hp2)
    · by_cases h2 : ltStr k k' = true
      · simp only [btreeInsertKV, if_neg h1, if_pos h2] at hp
        rcases List.mem_cons.mp hp with hp1 | hp2
        · exact Or.inl hp1
        · exact Or.inr hp2
      · simp only [btreeInsertKV, if_neg h1, if_neg h2] at hp
        rcases List.mem_cons.mp hp with hp1 | hp2
        · exact Or.inr (hp1 ▸ List.mem_cons_self _ _)
        · rcases IH p hp2 with hp3 | hp4
          · exact Or.inl hp3
          · exact Or.inr (List.mem_cons_of_mem _ hp4)

theorem sorted_btreeInsertKV {α : Type} (k : String) (v : α) :
    ∀ l : List (String × α),
    l.Pairwise (fun p q => ltStr p.1 q.1 = true) →
    (btreeInsertKV k v l).Pairwise (fun p q => ltStr p.1 q.1 = true) := by
  intro l
  induction l with
  | nil => intro _; simp [btreeInsertKV]
  | cons q rest IH =>
    intro hp
    rw [List.pairwise_cons] at hp
    obtain ⟨hhead, htail⟩ := hp
    obtain ⟨k', v'⟩ := q
    by_cases h1 : k = k'
    · subst h1
      simp only [btreeInsertKV, if_pos rfl]
      exact List.pairwise_cons.mpr ⟨fun x hx => hhead x hx, htail⟩
    · by_cases h2 : ltStr k k' = true
      · simp only [btreeInsertKV, if_neg h1, if_pos h2]
        refine List.pairwise_cons.mpr ⟨?_,
          List.pairwise_cons.mpr ⟨hhead, htail⟩⟩
        intro x hx
        rcases List.mem_cons.mp hx with hx1 | hx2
        · subst hx1; exact h2
        · exact ltStr_trans h2 (hhead x hx2)
      · have h3 : ltStr k' k = true := by
          rcases ltStr_total h1 with hh | hh
          · exact absurd hh h2
          · exact hh
        simp only [btreeInsertKV, if_neg h1, if_neg h2]
        refine List.pairwise_cons.mpr ⟨?_, IH htail⟩
        intro x hx
        rcases mem_btreeInsertKV k v rest x hx with hx1 | hx2
        · subst hx1; exact h3
        · exact hhead x hx2

theorem buildCredentials_sorted :
    ∀ (raws : List (String × ValueMap))
      (creds : List (String × CredentialSource)),
    buildCredentials raws = .ok creds →
    creds.Pairwise (fun p q => ltStr p.1 q.1 = true) := by
  intro raws
  induction raws with
  | nil =>
    intro creds h
    injection h with h'
    subst h'
    exact List.Pairwise.nil
  | cons p rest IH =>
    intro creds h
    obtain ⟨name, cred⟩ := p
    unfold buildCredentials at h
    split at h
    · exact Except.noConfusion h
    · split at h
      · exact Except.noConfusion h
      · rename_i tail htail
        injection h with h'
        subst h'
        exact sorted_btreeInsertKV _ _ _ (IH tail htail)

theorem btreeInsertKV_front {α : Type} (k : String) (v : α) :
    ∀ l : List (String × α), (∀ p ∈ l, ltStr k p.1 = true) →
    btreeInsertKV k v l = (k, v) :: l := by
  intro l hl
  cases l with
  | nil => rfl
  | cons q rest =>
    have hlt : ltStr k q.1 = true := hl q (List.mem_cons_self q rest)
    have hne : k ≠ q.1 := by
      intro he
      subst he
      rw [ltStr_irrefl] at hlt
      exact Bool.noConfusion hlt
    obtain ⟨k', v'⟩ := q
    simp only [btreeInsertKV, if_neg hne, if_pos hlt]

theorem from_map_toMap_cred (cs : CredentialSource) :
    CredentialSource.from_map cs.toMap = .ok cs := by
  cases cs <;> rfl

theorem from_map_toMap_vr (vr : ValueRef) :
    ValueRef.from_map vr.toMap = .ok vr := by
  cases vr <;> rfl

theorem ofRaw_ofStep (st : Step) : Step.ofRaw (RawStep.ofStep st) = st := by
  cases st <;> rfl

theorem buildCredentials_roundtrip :
    ∀ creds : List (String × CredentialSource),
    creds.Pairwise (fun p q => ltStr p.1 q.1 = true) →
    buildCredentials (creds.map (fun p => (p.1, p.2.toMap))) = .ok creds := by
  intro creds
  induction creds with
  | nil => intro _; rfl
  | cons p rest IH =>
    intro hp
    rw [List.pairwise_cons] at hp
    obtain ⟨hhead, htail⟩ := hp
    obtain ⟨name, src⟩ := p
    rw [List.map_cons]
    unfold buildCredentials
    simp only [from_map_toMap_cred, IH htail]
    rw [btreeInsertKV_front name src rest (fun q hq => hhead q hq)]

theorem map_ofRaw_ofStep (l : List Step) :
    (l.map RawStep.ofStep).map Step.ofRaw = l := by
  induction l with
  | nil => rfl
  | cons a t IH => simp [ofRaw_ofStep, IH]

/-- Claim C7: for every raw configuration that validates successfully into a
`FlowConfig`, serializing that `FlowConfig` back to the structured format
(`toRaw`, modelled from the spec since the repository has no serializer) and
re-validating yields exactly the same `FlowConfig` — equal `run_every`,
equal credential mapping and equal step sequence; moreover the value-map
layer round-trips: re-deserializing the serialized form of any value
reference or credential source returns it unchanged, and the raw-step
conversion inverts the step conversion. -/
theorem config_serialization_roundtrip :
    (∀ (raw : RawConfig) (cfg : FlowConfig),
      FlowConfig.fromRaw raw = .ok cfg →
      FlowConfig.fromRaw cfg.toRaw = .ok cfg) ∧
    (∀ vr : ValueRef, ValueRef.from_map vr.toMap = .ok vr) ∧
    (∀ cs : CredentialSource, CredentialSource.from_map cs.toMap = .ok cs) ∧
    (∀ st : Step, Step.ofRaw (RawStep.ofStep st) = st) := by
  refine ⟨?_, from_map_toMap_vr, from_map_toMap_cred, ofRaw_ofStep⟩
  intro raw cfg hraw
  unfold FlowConfig.fromRaw at hraw
  split at hraw
  · exact Except.noConfusion hraw
  · rename_i v hparse
    split at hraw
    · exact Except.noConfusion hraw
    · rename_i creds hcreds
      injection hraw with h'
      subst h'
      have hv : v < 2 ^ 64 := parse_duration_lt hparse
      have hsorted := buildCredentials_sorted _ _ hcreds
      unfold FlowConfig.toRaw FlowConfig.fromRaw
      simp only [durationToStr_roundtrip hv,
        buildCredentials_roundtrip creds hsorted, map_ofRaw_ofStep]

/-- Witness for C7 at a one-credential, one-step configuration. -/
theorem config_serialization_roundtrip_witness :
    FlowConfig.fromRaw
      (FlowConfig.toRaw ⟨60, [("c", CredentialSource.value "v")],
        [Step.telegram ⟨ValueRef.literal "x", ValueRef.literal "y", none⟩]⟩) =
      .ok ⟨60, [("c", CredentialSource.value "v")],
        [Step.telegram ⟨ValueRef.literal "x", ValueRef.literal "y", none⟩]⟩ :=
  config_serialization_roundtrip.1
    ⟨"60", [("c", ⟨some "v", none, none, none⟩)],
      [RawStep.telegram (ValueRef.literal "x") (ValueRef.literal "y") none]⟩
    _ (by decide)

end Remind
